import Mathlib

/-! Shallow embedding of the data-aggregation pipeline of the HDB resale dashboard
(`src/utils/dataProcessor.ts`) together with theorems settling the
claims that the specification makes about it.

Modelling conventions:
* JS numbers are modelled as exact rationals `ℚ`.
* A JS number that may be `NaN` (the result of `parseFloat`, or of arithmetic
  on such a value) is modelled as `Option ℚ`, `none` standing for `NaN`;
  record fields therefore carry the *parse result* of the raw decimal string.
* JS `undefined`/`null` results are likewise `none`.
* `d3.quantile` (linear-interpolation quantile over order statistics),
  `d3.min`, `d3.max`, `d3.group`, `d3.sum` and `Array.prototype.sort` with a
  numeric comparator are modelled directly below.
-/

namespace HdbSpec

/- ### JS regex primitives for the lease parser

`parseRemainingLeaseToYears` matches its input against the unanchored regex
`(\d+)\s+years?(?:\s+(\d+)\s+months?)?`.  The character classes `\d` and `\s`
are disjoint from each other and from the literal letters of the pattern, so
the greedy backtracking search of the engine is equivalent to maximal-munch
matching attempted at each start position from left to right. -/

/-- JS `\d`, exactly the ASCII digits 0-9. -/
def isAsciiDigit (c : Char) : Bool := 48 ≤ c.toNat && c.toNat ≤ 57

/-- JS `\s`: the ECMA-262 whitespace and line-terminator characters. -/
def isJsSpace (c : Char) : Bool :=
  c.toNat = 9 || c.toNat = 10 || c.toNat = 11 || c.toNat = 12 || c.toNat = 13 ||
  c.toNat = 32 || c.toNat = 160 || c.toNat = 0x1680 ||
  (0x2000 ≤ c.toNat && c.toNat ≤ 0x200a) ||
  c.toNat = 0x2028 || c.toNat = 0x2029 || c.toNat = 0x202f || c.toNat = 0x205f ||
  c.toNat = 0x3000 || c.toNat = 0xfeff

/-- `parseInt(ds, 10)` on a digit string captured by `(\d+)`. -/
def digitsToNat (ds : List Char) : ℕ :=
  ds.foldl (fun acc c => 10 * acc + (c.toNat - 48)) 0

/-- The optional month group `(?:\s+(\d+)\s+months?)?` at a fixed position:
returns the captured month count, `0` when the group does not match
(mirroring `match[2] ? parseInt(match[2], 10) : 0`). -/
def matchMonthsAt (l : List Char) : ℕ :=
  if (l.takeWhile isJsSpace).isEmpty then 0
  else if ((l.dropWhile isJsSpace).takeWhile isAsciiDigit).isEmpty then 0
  else if (((l.dropWhile isJsSpace).dropWhile isAsciiDigit).takeWhile isJsSpace).isEmpty then 0
  else
    match ((l.dropWhile isJsSpace).dropWhile isAsciiDigit).dropWhile isJsSpace with
    | 'm' :: 'o' :: 'n' :: 't' :: 'h' :: _ =>
      digitsToNat ((l.dropWhile isJsSpace).takeWhile isAsciiDigit)
    | _ => 0

/-- The greedy optional `s` of `years?`: consume a leading `'s'` when
present. -/
def stripS : List Char → List Char
  | 's' :: t => t
  | l => l

/-- The whole pattern anchored at a fixed start position: `(\d+)\s+years?`
followed by the optional month group.  Returns `(years, months)`. -/
def matchYearsAt (l : List Char) : Option (ℕ × ℕ) :=
  if (l.takeWhile isAsciiDigit).isEmpty then none
  else if ((l.dropWhile isAsciiDigit).takeWhile isJsSpace).isEmpty then none
  else
    match (l.dropWhile isAsciiDigit).dropWhile isJsSpace with
    | 'y' :: 'e' :: 'a' :: 'r' :: r3 =>
      some (digitsToNat (l.takeWhile isAsciiDigit), matchMonthsAt (stripS r3))
    | _ => none

/-- `String.prototype.match` with the (unanchored) lease regex: the match is
attempted at each start position from left to right. -/
def findLeaseMatch : List Char → Option (ℕ × ℕ)
  | [] => none
  | c :: rest =>
    match matchYearsAt (c :: rest) with
    | some r => some r
    | none => findLeaseMatch rest

/-- `parseRemainingLeaseToYears` from `dataProcessor.ts`.  The argument is
`string | undefined`; `if (!leaseStr) return null` rejects both `undefined`
and the (falsy) empty string. -/
def parseRemainingLeaseToYears : Option String → Option ℚ
  | none => none
  | some s =>
    if s = "" then none
    else
      match findLeaseMatch s.toList with
      | none => none
      | some (y, m) => some ((y : ℚ) + (m : ℚ) / 12)

/- ### d3 numeric helpers -/

/-- `d3.min` over a list of (valid) numbers; `none` on the empty list. -/
def d3min : List ℚ → Option ℚ
  | [] => none
  | x :: xs =>
    match d3min xs with
    | none => some x
    | some m => some (min x m)

/-- `d3.max` over a list of (valid) numbers; `none` on the empty list. -/
def d3max : List ℚ → Option ℚ
  | [] => none
  | x :: xs =>
    match d3max xs with
    | none => some x
    | some m => some (max x m)

/-- `d3.sum`. -/
def d3sum (l : List ℚ) : ℚ := l.sum

/-- The index `i0 = Math.floor((n - 1) * p)` used by `d3.quantile`. -/
def qIdx (v : List ℚ) (p : ℚ) : ℕ := (⌊((v.length : ℚ) - 1) * p⌋).toNat

/-- The interpolation branch of `d3.quantile`: with `h = (n - 1) * p` and
`i0 = ⌊h⌋`, the result is `v[i0] + (v[i0+1] - v[i0]) * (h - i0)` over the
order statistics of `v` (here `v` is already sorted ascending). -/
def interp (v : List ℚ) (p : ℚ) : ℚ :=
  v.getD (qIdx v p) 0 +
    (v.getD (qIdx v p + 1) 0 - v.getD (qIdx v p) 0) *
      (((v.length : ℚ) - 1) * p - (qIdx v p : ℚ))

/-- `d3.quantile` applied to an ascending-sorted list of valid numbers:
`undefined` on the empty list, the minimum when `p ≤ 0` or there are fewer
than 2 values, the maximum when `p ≥ 1`, linear interpolation otherwise. -/
def quantileSorted (v : List ℚ) (p : ℚ) : Option ℚ :=
  match v with
  | [] => none
  | x :: xs =>
    if p ≤ 0 ∨ (x :: xs).length < 2 then some ((d3min (x :: xs)).getD x)
    else if 1 ≤ p then some ((d3max (x :: xs)).getD x)
    else some (interp (x :: xs) p)

/-- `Array.prototype.sort(d3.ascending)` on numbers: a stable ascending
sort. -/
def sortAsc (l : List ℚ) : List ℚ := List.insertionSort (· ≤ ·) l

/- ### Data model (`types.ts`) -/

/-- `sqm → sqft` conversion factor from `dataProcessor.ts`. -/
def SQM_TO_SQFT_CONVERSION : ℚ := 10.7639

/-- The metric selectable for the box plot. -/
inductive BoxPlotMetric where
  | resale_price
  | price_psf
  | price_per_lease
deriving DecidableEq

/-- `HdbResaleRecord`.  `resale_price` holds the result of
`parseFloat(r.resale_price)` (`none` = `NaN`); `floor_area_sqm` holds the
result of `r.floor_area_sqm ? parseFloat(r.floor_area_sqm) : NaN`
(`none` = absent, empty, or unparseable); `remaining_lease` is the raw
optional string, parsed on demand by `parseRemainingLeaseToYears`. -/
structure HdbResaleRecord where
  month : String
  town : String
  flat_type : String
  resale_price : Option ℚ
  floor_area_sqm : Option ℚ
  remaining_lease : Option String
deriving DecidableEq

/-- An entry of the intermediate `processedRecords` array built inside
`processRecordGroup` (value of the requested metric plus tooltip context). -/
structure ProcessedRecord where
  value : Option ℚ
  resale_price : Option ℚ
  flat_type : String
  town : String
  remaining_lease : Option String
  floor_area_sqm : Option ℚ
deriving DecidableEq

/-- `Outlier` from `types.ts`. -/
structure Outlier where
  price : ℚ
  resale_price : Option ℚ
  flat_type : String
  town : String
  remaining_lease : Option String
  floor_area_sqm : Option ℚ
deriving DecidableEq

/-- `BoxPlotStats` from `types.ts`. -/
structure BoxPlotStats where
  month : String
  min : ℚ
  q1 : ℚ
  median : ℚ
  q3 : ℚ
  max : ℚ
  outliers : List Outlier
deriving DecidableEq

/- ### processRecordGroup -/

/-- The `.map` step of `processRecordGroup`: derive the requested metric value
(`null` when its precondition fails, `NaN` when the price is `NaN`; both are
`none` here) and carry the tooltip context along. -/
def mapRecord (metric : BoxPlotMetric) (r : HdbResaleRecord) : ProcessedRecord :=
  let value : Option ℚ :=
    match metric with
    | .resale_price => r.resale_price
    | .price_psf =>
      match r.floor_area_sqm with
      | some a => if 0 < a then r.resale_price.map (fun p => p / (a * SQM_TO_SQFT_CONVERSION)) else none
      | none => none
    | .price_per_lease =>
      match parseRemainingLeaseToYears r.remaining_lease with
      | some ly => if 0 < ly then r.resale_price.map (fun p => p / ly) else none
      | none => none
  { value := value
    resale_price := r.resale_price
    flat_type := r.flat_type
    town := r.town
    remaining_lease := r.remaining_lease
    floor_area_sqm := r.floor_area_sqm }

/-- The `.filter` step of `processRecordGroup`:
`r.value !== null && !isNaN(r.value) && r.flat_type && r.town`. -/
def keepProcessed (r : ProcessedRecord) : Bool :=
  r.value.isSome && r.flat_type != "" && r.town != ""

/-- `processedRecords` built inside `processRecordGroup`. -/
def processedRecords (records : List HdbResaleRecord) (metric : BoxPlotMetric) :
    List ProcessedRecord :=
  (records.map (mapRecord metric)).filter keepProcessed

/-- The TS non-null assertion on `r.value` after the filter. -/
def pval (r : ProcessedRecord) : ℚ := r.value.getD 0

/-- `sortedValues` of a record group. -/
def sortedValuesOf (records : List HdbResaleRecord) (metric : BoxPlotMetric) : List ℚ :=
  sortAsc ((processedRecords records metric).map pval)

/-- `q1 = d3.quantile(sortedValues, 0.25) ?? 0`. -/
def q1Of (records : List HdbResaleRecord) (metric : BoxPlotMetric) : ℚ :=
  (quantileSorted (sortedValuesOf records metric) 0.25).getD 0

/-- `median = d3.quantile(sortedValues, 0.5) ?? 0`. -/
def medianOf (records : List HdbResaleRecord) (metric : BoxPlotMetric) : ℚ :=
  (quantileSorted (sortedValuesOf records metric) 0.5).getD 0

/-- `q3 = d3.quantile(sortedValues, 0.75) ?? 0`. -/
def q3Of (records : List HdbResaleRecord) (metric : BoxPlotMetric) : ℚ :=
  (quantileSorted (sortedValuesOf records metric) 0.75).getD 0

/-- `lowerFence = q1 - 1.5 * iqr` with `iqr = q3 - q1`. -/
def lowerFenceOf (records : List HdbResaleRecord) (metric : BoxPlotMetric) : ℚ :=
  q1Of records metric - 1.5 * (q3Of records metric - q1Of records metric)

/-- `upperFence = q3 + 1.5 * iqr`. -/
def upperFenceOf (records : List HdbResaleRecord) (metric : BoxPlotMetric) : ℚ :=
  q3Of records metric + 1.5 * (q3Of records metric - q1Of records metric)

/-- The `outliers` array: records whose value lies strictly outside the
fences, mapped to `Outlier` entries carrying the tooltip context. -/
def outliersOf (records : List HdbResaleRecord) (metric : BoxPlotMetric) : List Outlier :=
  ((processedRecords records metric).filter
      (fun r => decide (pval r < lowerFenceOf records metric ∨
        upperFenceOf records metric < pval r))).map
    (fun r =>
      { price := pval r
        resale_price := r.resale_price
        flat_type := r.flat_type
        town := r.town
        remaining_lease := r.remaining_lease
        floor_area_sqm := r.floor_area_sqm })

/-- `nonOutlierValues`: values of records lying within the fences. -/
def nonOutlierValuesOf (records : List HdbResaleRecord) (metric : BoxPlotMetric) : List ℚ :=
  ((processedRecords records metric).filter
      (fun r => decide (lowerFenceOf records metric ≤ pval r ∧
        pval r ≤ upperFenceOf records metric))).map pval

/-- `processRecordGroup` from `dataProcessor.ts`: box-plot statistics for one
record group of one month, or `null` for an empty group or fewer than 5 valid
processed records. -/
def processRecordGroup (records : List HdbResaleRecord) (metric : BoxPlotMetric) :
    Option BoxPlotStats :=
  match records with
  | [] => none
  | r0 :: _ =>
    if (processedRecords records metric).length < 5 then none
    else
      some
        { month := r0.month
          min := (d3min (nonOutlierValuesOf records metric)).getD (q1Of records metric)
          q1 := q1Of records metric
          median := medianOf records metric
          q3 := q3Of records metric
          max := (d3max (nonOutlierValuesOf records metric)).getD (q3Of records metric)
          outliers := outliersOf records metric }

/- ### calculateBoxPlotData -/

/-- Key under which `new Date(month).getTime()` orders the `"YYYY-MM"` month
strings used by the app; `none` models an invalid date (`NaN` time, which
the ES sort-compare turns into `+0`, i.e. "equal"). -/
def parseMonthKey (s : String) : Option ℤ :=
  match s.toList with
  | [y1, y2, y3, y4, '-', m1, m2] =>
    if isAsciiDigit y1 && isAsciiDigit y2 && isAsciiDigit y3 && isAsciiDigit y4 &&
        isAsciiDigit m1 && isAsciiDigit m2 then
      let year := digitsToNat [y1, y2, y3, y4]
      let m := digitsToNat [m1, m2]
      if 1 ≤ m ∧ m ≤ 12 then some ((year : ℤ) * 12 + (m : ℤ)) else none
    else none
  | _ => none

/-- The comparator `(a, b) => new Date(a.month).getTime() - new Date(b.month).getTime()`
as a `Bool`-valued "a may come before b" relation for a stable sort. -/
def monthLeB (a b : BoxPlotStats) : Bool :=
  match parseMonthKey a.month, parseMonthKey b.month with
  | some x, some y => decide (x ≤ y)
  | _, _ => true

/-- `calculateBoxPlotData`: one stats entry per month of `xDomain` that has
records and at least 5 valid processed values, sorted chronologically. -/
def calculateBoxPlotData (records : List HdbResaleRecord) (xDomain : List String)
    (metric : BoxPlotMetric) : List BoxPlotStats :=
  if records.isEmpty then []
  else
    List.insertionSort (fun a b => monthLeB a b = true)
      (xDomain.filterMap (fun month =>
        if (records.filter (fun r => r.month == month)).isEmpty then none
        else processRecordGroup (records.filter (fun r => r.month == month)) metric))

/- ### calculateGlobalYDomain -/

/-- The distinct months of the dataset, i.e. the keys of
`d3.group(records, d => d.month)`. -/
def monthsOf (records : List HdbResaleRecord) : List String :=
  (records.map (fun r => r.month)).dedup

/-- `monthMax = d3.max([stats.max, ...stats.outliers.map(o => o.price)]) ?? 0`. -/
def monthMaxOf (stats : BoxPlotStats) : ℚ :=
  (d3max (stats.max :: stats.outliers.map (fun o => o.price))).getD 0

/-- One step of the `globalMax` accumulation in `calculateGlobalYDomain`. -/
def globalMaxStep (metric : BoxPlotMetric) (records : List HdbResaleRecord)
    (acc : ℚ) (month : String) : ℚ :=
  match processRecordGroup (records.filter (fun r => r.month == month)) metric with
  | none => acc
  | some stats => if acc < monthMaxOf stats then monthMaxOf stats else acc

/-- `calculateGlobalYDomain`: `[0, 1000000]` on empty input, else
`[0, globalMax * 1.05]` where `globalMax` ranges over the box-plot `max`
and outlier values of every month group. -/
def calculateGlobalYDomain (records : List HdbResaleRecord) (metric : BoxPlotMetric) :
    ℚ × ℚ :=
  if records.isEmpty then (0, 1000000)
  else (0, ((monthsOf records).foldl (globalMaxStep metric records) 0) * 1.05)

/- ### calculateLineChartData -/

/-- An entry of the per-month `validRecords` array (before its
`!isNaN(r.price)` filter). -/
structure NormRecord where
  price : Option ℚ
  area_sqm : Option ℚ
  lease_years : Option ℚ
deriving DecidableEq

/-- The per-record normalisation step shared by the line-chart aggregator. -/
def normRecord (r : HdbResaleRecord) : NormRecord :=
  { price := r.resale_price
    area_sqm := r.floor_area_sqm
    lease_years := parseRemainingLeaseToYears r.remaining_lease }

/-- The TS non-null assertion on `r.price` after the `!isNaN` filter. -/
def npr (r : NormRecord) : ℚ := r.price.getD 0

/-- `LineChartDataPoint` from `types.ts` (all metric fields optional). -/
structure LineChartDataPoint where
  month : String
  transactionCount : Option ℕ
  grossTransactionValue : Option ℚ
  median_psf : Option ℚ
  median_price_per_lease : Option ℚ
  millionDollarTransactionPercentage : Option ℚ
deriving DecidableEq

/-- The object returned by `calculateLineChartData`. -/
structure LineChartResult where
  lineChartData : List LineChartDataPoint
  transactionCountYDomain : ℚ × ℚ
  grossTransactionValueYDomain : ℚ × ℚ
  medianPsfYDomain : ℚ × ℚ
  medianPricePerLeaseYDomain : ℚ × ℚ
  millionDollarPercentageYDomain : ℚ × ℚ
deriving DecidableEq

/-- `monthRecords = recordsByMonth.get(month) ?? []`. -/
def monthRecordsOf (records : List HdbResaleRecord) (month : String) :
    List HdbResaleRecord :=
  records.filter (fun r => r.month == month)

/-- The per-month `validRecords` array: normalised records whose price
parsed. -/
def validRecordsOf (records : List HdbResaleRecord) (month : String) : List NormRecord :=
  ((monthRecordsOf records month).map normRecord).filter (fun r => r.price.isSome)

/-- `prices` of the valid records of the month. -/
def pricesOf (records : List HdbResaleRecord) (month : String) : List ℚ :=
  (validRecordsOf records month).map npr

/-- `psfValues`, sorted ascending, over the area-valid subset. -/
def psfValuesOf (records : List HdbResaleRecord) (month : String) : List ℚ :=
  sortAsc (((validRecordsOf records month).filter (fun r =>
      match r.area_sqm with
      | some a => decide (0 < a)
      | none => false)).map
    (fun r => npr r / (r.area_sqm.getD 0 * SQM_TO_SQFT_CONVERSION)))

/-- `pricePerLeaseValues`, sorted ascending, over the lease-valid subset. -/
def pricePerLeaseValuesOf (records : List HdbResaleRecord) (month : String) : List ℚ :=
  sortAsc (((validRecordsOf records month).filter (fun r =>
      match r.lease_years with
      | some ly => decide (0 < ly)
      | none => false)).map
    (fun r => npr r / r.lease_years.getD 0))

/-- `millionDollarTransactionPercentage` of one month. -/
def millionPctOf (records : List HdbResaleRecord) (month : String) : ℚ :=
  if 0 < (pricesOf records month).length then
    ((((pricesOf records month).filter (fun p => decide (1000000 ≤ p))).length : ℚ)
      / ((pricesOf records month).length : ℚ)) * 100
  else 0

/-- The loop body of `calculateLineChartData`: the point pushed for one month
of `xDomain` (a fully-`undefined` gap marker when the month has no
valid-priced record). -/
def lineChartPoint (records : List HdbResaleRecord) (month : String) : LineChartDataPoint :=
  if 0 < (validRecordsOf records month).length then
    { month := month
      transactionCount := some (validRecordsOf records month).length
      grossTransactionValue := some (d3sum (pricesOf records month))
      median_psf := quantileSorted (psfValuesOf records month) 0.5
      median_price_per_lease := quantileSorted (pricePerLeaseValuesOf records month) 0.5
      millionDollarTransactionPercentage := some (millionPctOf records month) }
  else
    { month := month
      transactionCount := none
      grossTransactionValue := none
      median_psf := none
      median_price_per_lease := none
      millionDollarTransactionPercentage := none }

/-- `[0, d3.extent(xs)[1] ?? 0 scaled]` upper end: the maximum of the defined
values, `0` when there are none. -/
def definedMax (l : List ℚ) : ℚ := (d3max l).getD 0

/-- `calculateLineChartData`: fixed fallback domains and an empty point list
on empty input, else one point per month of `xDomain` plus padded per-metric
Y-domains. -/
def calculateLineChartData (records : List HdbResaleRecord) (xDomain : List String) :
    LineChartResult :=
  if records.isEmpty then
    { lineChartData := []
      transactionCountYDomain := (0, 100)
      grossTransactionValueYDomain := (0, 1000000)
      medianPsfYDomain := (0, 1000)
      medianPricePerLeaseYDomain := (0, 1000)
      millionDollarPercentageYDomain := (0, 5) }
  else
    { lineChartData := xDomain.map (lineChartPoint records)
      transactionCountYDomain :=
        (0, definedMax (((xDomain.map (lineChartPoint records)).filterMap
          (fun d => d.transactionCount)).map (fun n => (n : ℚ))) * 1.2)
      grossTransactionValueYDomain :=
        (0, definedMax ((xDomain.map (lineChartPoint records)).filterMap
          (fun d => d.grossTransactionValue)) * 1.05)
      medianPsfYDomain :=
        (0, definedMax ((xDomain.map (lineChartPoint records)).filterMap
          (fun d => d.median_psf)) * 1.05)
      medianPricePerLeaseYDomain :=
        (0, definedMax ((xDomain.map (lineChartPoint records)).filterMap
          (fun d => d.median_price_per_lease)) * 1.05)
      millionDollarPercentageYDomain :=
        (0, definedMax ((xDomain.map (lineChartPoint records)).filterMap
          (fun d => d.millionDollarTransactionPercentage)) * 1.05) }

/- ### calculateStackedBarChartData -/

/-- `StackedBarChartDataPoint` from `types.ts`; the five TS band fields
(0-300k, 300-500k, 500-800k, 800k-1m, at least 1m) are renamed to legal Lean
identifiers. -/
structure StackedBarChartDataPoint where
  month : String
  cat0to300k : ℕ
  cat300to500k : ℕ
  cat500to800k : ℕ
  cat800kto1m : ℕ
  catGe1m : ℕ
  totalTransactions : ℕ
deriving DecidableEq

/-- The loop body over one record: skip an unparseable price, otherwise count
it in `totalTransactions` and in the single half-open band it falls in. -/
def tallyRecord (acc : StackedBarChartDataPoint) (r : HdbResaleRecord) :
    StackedBarChartDataPoint :=
  match r.resale_price with
  | none => acc
  | some price =>
    let acc := { acc with totalTransactions := acc.totalTransactions + 1 }
    if price < 300000 then { acc with cat0to300k := acc.cat0to300k + 1 }
    else if price < 500000 then { acc with cat300to500k := acc.cat300to500k + 1 }
    else if price < 800000 then { acc with cat500to800k := acc.cat500to800k + 1 }
    else if price < 1000000 then { acc with cat800kto1m := acc.cat800kto1m + 1 }
    else { acc with catGe1m := acc.catGe1m + 1 }

/-- The point pushed for one month of `xDomain`. -/
def stackedBarPoint (records : List HdbResaleRecord) (month : String) :
    StackedBarChartDataPoint :=
  (records.filter (fun r => r.month == month)).foldl tallyRecord
    { month := month
      cat0to300k := 0
      cat300to500k := 0
      cat500to800k := 0
      cat800kto1m := 0
      catGe1m := 0
      totalTransactions := 0 }

/-- `calculateStackedBarChartData`. -/
def calculateStackedBarChartData (records : List HdbResaleRecord) (xDomain : List String) :
    List StackedBarChartDataPoint :=
  if records.isEmpty then []
  else xDomain.map (stackedBarPoint records)

/- ### Lemmas about the d3 helpers -/

theorem d3min_eq_none_iff {l : List ℚ} : d3min l = none ↔ l = [] := by
  cases l with
  | nil => simp [d3min]
  | cons x xs =>
    simp only [d3min]
    cases d3min xs <;> simp

theorem d3min_mem : ∀ {l : List ℚ} {m : ℚ}, d3min l = some m → m ∈ l := by
  intro l
  induction l with
  | nil => intro m h; simp [d3min] at h
  | cons x xs ih =>
    intro m h
    simp only [d3min] at h
    cases hx : d3min xs with
    | none => rw [hx] at h; simp at h; simp [h]
    | some m' =>
      rw [hx] at h
      simp at h
      rcases min_choice x m' with hc | hc
      · rw [← h, hc]; exact List.mem_cons_self x xs
      · rw [← h, hc]; exact List.mem_cons_of_mem x (ih hx)

theorem d3min_le : ∀ {l : List ℚ} {m : ℚ}, d3min l = some m → ∀ x ∈ l, m ≤ x := by
  intro l
  induction l with
  | nil => intro m h; simp [d3min] at h
  | cons x xs ih =>
    intro m h y hy
    simp only [d3min] at h
    cases hx : d3min xs with
    | none =>
      rw [hx] at h; simp at h
      have : xs = [] := d3min_eq_none_iff.1 hx
      subst this
      simp at hy
      simp [← h, hy]
    | some m' =>
      rw [hx] at h; simp at h
      rcases List.mem_cons.1 hy with hy | hy
      · rw [← h, hy]; exact min_le_left x m'
      · rw [← h]; exact (min_le_right x m').trans (ih hx y hy)

theorem d3max_eq_none_iff {l : List ℚ} : d3max l = none ↔ l = [] := by
  cases l with
  | nil => simp [d3max]
  | cons x xs =>
    simp only [d3max]
    cases d3max xs <;> simp

theorem d3max_mem : ∀ {l : List ℚ} {m : ℚ}, d3max l = some m → m ∈ l := by
  intro l
  induction l with
  | nil => intro m h; simp [d3max] at h
  | cons x xs ih =>
    intro m h
    simp only [d3max] at h
    cases hx : d3max xs with
    | none => rw [hx] at h; simp at h; simp [h]
    | some m' =>
      rw [hx] at h
      simp at h
      rcases max_choice x m' with hc | hc
      · rw [← h, hc]; exact List.mem_cons_self x xs
      · rw [← h, hc]; exact List.mem_cons_of_mem x (ih hx)

theorem d3max_ge : ∀ {l : List ℚ} {m : ℚ}, d3max l = some m → ∀ x ∈ l, x ≤ m := by
  intro l
  induction l with
  | nil => intro m h; simp [d3max] at h
  | cons x xs ih =>
    intro m h y hy
    simp only [d3max] at h
    cases hx : d3max xs with
    | none =>
      rw [hx] at h; simp at h
      have : xs = [] := d3max_eq_none_iff.1 hx
      subst this
      simp at hy
      simp [← h, hy]
    | some m' =>
      rw [hx] at h; simp at h
      rcases List.mem_cons.1 hy with hy | hy
      · rw [← h, hy]; exact le_max_left x m'
      · rw [← h]; exact (ih hx y hy).trans (le_max_right x m')

theorem d3min_isSome {l : List ℚ} (h : l ≠ []) : (d3min l).isSome = true := by
  cases hm : d3min l with
  | none => exact absurd (d3min_eq_none_iff.1 hm) h
  | some m => rfl

theorem d3max_isSome {l : List ℚ} (h : l ≠ []) : (d3max l).isSome = true := by
  cases hm : d3max l with
  | none => exact absurd (d3max_eq_none_iff.1 hm) h
  | some m => rfl

/- ### Lemmas about the lease regex -/

theorem takeWhile_append_of (p : Char → Bool) :
    ∀ (l1 l2 : List Char), (∀ c ∈ l1, p c = true) →
      (∀ c, l2.head? = some c → p c = false) →
      (l1 ++ l2).takeWhile p = l1 ∧ (l1 ++ l2).dropWhile p = l2 := by
  intro l1
  induction l1 with
  | nil =>
    intro l2 h1 h2
    simp only [List.nil_append]
    cases l2 with
    | nil => simp
    | cons c t =>
      have hc := h2 c rfl
      simp [List.takeWhile_cons, List.dropWhile_cons, hc]
  | cons a t ih =>
    intro l2 h1 h2
    have ha := h1 a (List.mem_cons_self a t)
    have ht := ih l2 (fun c hc => h1 c (List.mem_cons_of_mem a hc)) h2
    simp [List.takeWhile_cons, List.dropWhile_cons, ha, ht.1, ht.2]

theorem jsSpace_not_digit {c : Char} (h : isJsSpace c = true) : isAsciiDigit c = false := by
  rw [Bool.eq_false_iff]
  intro hd
  simp only [isAsciiDigit, Bool.and_eq_true, decide_eq_true_eq] at hd
  simp only [isJsSpace, Bool.or_eq_true, Bool.and_eq_true, decide_eq_true_eq] at h
  omega

theorem digit_not_space {c : Char} (h : isAsciiDigit c = true) : isJsSpace c = false := by
  rw [Bool.eq_false_iff]
  intro hs
  simp only [isAsciiDigit, Bool.and_eq_true, decide_eq_true_eq] at h
  simp only [isJsSpace, Bool.or_eq_true, Bool.and_eq_true, decide_eq_true_eq] at hs
  omega

theorem matchMonthsAt_eq (sp1 ms sp2 suf : List Char)
    (h1 : sp1 ≠ []) (h1s : ∀ c ∈ sp1, isJsSpace c = true)
    (h2 : ms ≠ []) (h2d : ∀ c ∈ ms, isAsciiDigit c = true)
    (h3 : sp2 ≠ []) (h3s : ∀ c ∈ sp2, isJsSpace c = true) :
    matchMonthsAt (sp1 ++ ms ++ sp2 ++ ('m' :: 'o' :: 'n' :: 't' :: 'h' :: suf)) =
      digitsToNat ms := by
  obtain ⟨c1, t1, rfl⟩ := List.exists_cons_of_ne_nil h1
  obtain ⟨dm, tm, rfl⟩ := List.exists_cons_of_ne_nil h2
  obtain ⟨c2, t2, rfl⟩ := List.exists_cons_of_ne_nil h3
  have hA := takeWhile_append_of isJsSpace (c1 :: t1)
    ((dm :: tm) ++ ((c2 :: t2) ++ ('m' :: 'o' :: 'n' :: 't' :: 'h' :: suf))) h1s
    (fun c hc => by
      simp at hc
      subst hc
      exact digit_not_space (h2d dm (List.mem_cons_self dm tm)))
  have hB := takeWhile_append_of isAsciiDigit (dm :: tm)
    ((c2 :: t2) ++ ('m' :: 'o' :: 'n' :: 't' :: 'h' :: suf)) h2d
    (fun c hc => by
      simp at hc
      subst hc
      exact jsSpace_not_digit (h3s c2 (List.mem_cons_self c2 t2)))
  have hC := takeWhile_append_of isJsSpace (c2 :: t2)
    ('m' :: 'o' :: 'n' :: 't' :: 'h' :: suf) h3s
    (fun c hc => by
      simp at hc
      subst hc
      decide)
  simp only [matchMonthsAt, List.append_assoc]
  rw [hA.1, hA.2, hB.1, hB.2, hC.1, hC.2]
  simp

theorem matchYearsAt_eq (ds sp suf : List Char)
    (hd : ds ≠ []) (hdd : ∀ c ∈ ds, isAsciiDigit c = true)
    (hs : sp ≠ []) (hss : ∀ c ∈ sp, isJsSpace c = true) :
    matchYearsAt (ds ++ sp ++ ('y' :: 'e' :: 'a' :: 'r' :: suf)) =
      some (digitsToNat ds, matchMonthsAt (stripS suf)) := by
  obtain ⟨d0, dt, rfl⟩ := List.exists_cons_of_ne_nil hd
  obtain ⟨c0, ct, rfl⟩ := List.exists_cons_of_ne_nil hs
  have hA := takeWhile_append_of isAsciiDigit (d0 :: dt)
    ((c0 :: ct) ++ ('y' :: 'e' :: 'a' :: 'r' :: suf)) hdd
    (fun c hc => by
      simp at hc
      subst hc
      exact jsSpace_not_digit (hss c0 (List.mem_cons_self c0 ct)))
  have hB := takeWhile_append_of isJsSpace (c0 :: ct)
    ('y' :: 'e' :: 'a' :: 'r' :: suf) hss
    (fun c hc => by
      simp at hc
      subst hc
      decide)
  simp only [matchYearsAt, List.append_assoc]
  rw [hA.1, hA.2, hB.1, hB.2]
  simp

theorem matchYearsAt_nil : matchYearsAt [] = none := rfl

theorem findLeaseMatch_of_suffix : ∀ {l t : List Char}, t <:+ l →
    matchYearsAt t ≠ none → findLeaseMatch l ≠ none := by
  intro l
  induction l with
  | nil =>
    intro t ht hm
    rw [List.suffix_nil.1 ht] at hm
    exact absurd matchYearsAt_nil hm
  | cons c rest ih =>
    intro t ht hm
    cases hmc : matchYearsAt (c :: rest) with
    | some r => simp [findLeaseMatch, hmc]
    | none =>
      simp only [findLeaseMatch, hmc]
      rcases List.suffix_cons_iff.1 ht with h | h
      · rw [h] at hm; exact absurd hmc hm
      · exact ih h hm

theorem findLeaseMatch_cons {c : Char} {rest : List Char} {r : ℕ × ℕ}
    (h : matchYearsAt (c :: rest) = some r) : findLeaseMatch (c :: rest) = some r := by
  simp [findLeaseMatch, h]

theorem parse_of_match {s : String} {y m : ℕ} (hne : s.toList ≠ [])
    (h : findLeaseMatch s.toList = some (y, m)) :
    parseRemainingLeaseToYears (some s) = some ((y : ℚ) + (m : ℚ) / 12) := by
  have hs : s ≠ "" := by intro he; rw [he] at hne; exact hne rfl
  have h' : findLeaseMatch s.data = some (y, m) := h
  simp [parseRemainingLeaseToYears, hs, h']

theorem parse_of_no_match {s : String} (h : findLeaseMatch s.toList = none) :
    parseRemainingLeaseToYears (some s) = none := by
  by_cases hs : s = ""
  · rw [hs]; rfl
  · have h' : findLeaseMatch s.data = none := h
    simp [parseRemainingLeaseToYears, hs, h']

/- ### Lemmas about the quantile estimator -/

theorem getD_eq_get {v : List ℚ} {i : ℕ} (h : i < v.length) :
    v.getD i 0 = v.get ⟨i, h⟩ := by
  simp [List.getD_eq_getElem?_getD, List.getElem?_eq_getElem h, List.get_eq_getElem]

theorem getD_mem {v : List ℚ} {i : ℕ} (h : i < v.length) : v.getD i 0 ∈ v := by
  rw [getD_eq_get h]
  exact List.get_mem v i h

theorem sorted_getD_le {v : List ℚ} (hs : List.Sorted (· ≤ ·) v) {i j : ℕ}
    (hij : i ≤ j) (hj : j < v.length) : v.getD i 0 ≤ v.getD j 0 := by
  have hi : i < v.length := lt_of_le_of_lt hij hj
  rw [getD_eq_get hi, getD_eq_get hj]
  exact hs.rel_get_of_le (Fin.mk_le_mk.mpr hij)

theorem qIdx_cast {v : List ℚ} {p : ℚ} (h0 : 0 ≤ ((v.length : ℚ) - 1) * p) :
    ((qIdx v p : ℕ) : ℚ) = (⌊((v.length : ℚ) - 1) * p⌋ : ℚ) := by
  unfold qIdx
  exact_mod_cast congrArg (fun z : ℤ => (z : ℚ))
    (Int.toNat_of_nonneg (Int.floor_nonneg.2 h0))

theorem qIdx_facts {v : List ℚ} {p : ℚ} (hn : 2 ≤ v.length) (hp0 : 0 < p) (hp1 : p < 1) :
    ((qIdx v p : ℚ) ≤ ((v.length : ℚ) - 1) * p) ∧
      (((v.length : ℚ) - 1) * p < (qIdx v p : ℚ) + 1) ∧
      qIdx v p + 1 < v.length := by
  have hn' : (2 : ℚ) ≤ (v.length : ℚ) := by exact_mod_cast hn
  have h0 : 0 ≤ ((v.length : ℚ) - 1) * p := mul_nonneg (by linarith) hp0.le
  have hc := qIdx_cast h0
  refine ⟨?_, ?_, ?_⟩
  · rw [hc]; exact Int.floor_le _
  · rw [hc]; exact Int.lt_floor_add_one _
  · have hlt : ((v.length : ℚ) - 1) * p < (v.length : ℚ) - 1 := by nlinarith
    have hfl : (⌊((v.length : ℚ) - 1) * p⌋ : ℤ) < (v.length : ℤ) - 1 := by
      rw [Int.floor_lt]
      push_cast
      linarith
    have h0' : (0 : ℤ) ≤ ⌊((v.length : ℚ) - 1) * p⌋ := Int.floor_nonneg.2 h0
    unfold qIdx
    omega

theorem interp_bounds {v : List ℚ} {p : ℚ} (hs : List.Sorted (· ≤ ·) v)
    (hn : 2 ≤ v.length) (hp0 : 0 < p) (hp1 : p < 1) :
    v.getD (qIdx v p) 0 ≤ interp v p ∧ interp v p ≤ v.getD (qIdx v p + 1) 0 := by
  obtain ⟨hle, hlt, hidx⟩ := qIdx_facts hn hp0 hp1
  have hab : v.getD (qIdx v p) 0 ≤ v.getD (qIdx v p + 1) 0 :=
    sorted_getD_le hs (Nat.le_succ _) hidx
  unfold interp
  constructor
  · nlinarith
  · nlinarith

theorem interp_mono {v : List ℚ} {p q : ℚ} (hs : List.Sorted (· ≤ ·) v)
    (hn : 2 ≤ v.length) (hp0 : 0 < p) (hpq : p ≤ q) (hq1 : q < 1) :
    interp v p ≤ interp v q := by
  have hq0 : 0 < q := lt_of_lt_of_le hp0 hpq
  have hp1 : p < 1 := lt_of_le_of_lt hpq hq1
  have hn' : (2 : ℚ) ≤ (v.length : ℚ) := by exact_mod_cast hn
  obtain ⟨hle, hlt, hidx⟩ := qIdx_facts hn hp0 hp1
  obtain ⟨hle', hlt', hidx'⟩ := qIdx_facts hn hq0 hq1
  have hmono : qIdx v p ≤ qIdx v q := by
    have hfl : ⌊((v.length : ℚ) - 1) * p⌋ ≤ ⌊((v.length : ℚ) - 1) * q⌋ :=
      Int.floor_mono (mul_le_mul_of_nonneg_left hpq (by linarith))
    unfold qIdx
    omega
  rcases Nat.lt_or_ge (qIdx v p) (qIdx v q) with hlt2 | hge
  · have h1 : interp v p ≤ v.getD (qIdx v p + 1) 0 := (interp_bounds hs hn hp0 hp1).2
    have h2 : v.getD (qIdx v q) 0 ≤ interp v q := (interp_bounds hs hn hq0 hq1).1
    have h3 : v.getD (qIdx v p + 1) 0 ≤ v.getD (qIdx v q) 0 :=
      sorted_getD_le hs hlt2 (Nat.lt_of_succ_lt hidx')
    linarith
  · have heq : qIdx v p = qIdx v q := le_antisymm hmono hge
    have hab : v.getD (qIdx v q) 0 ≤ v.getD (qIdx v q + 1) 0 :=
      sorted_getD_le hs (Nat.le_succ _) hidx'
    have hh : ((v.length : ℚ) - 1) * p ≤ ((v.length : ℚ) - 1) * q :=
      mul_le_mul_of_nonneg_left hpq (by linarith)
    simp only [interp, heq]
    nlinarith

theorem quantileSorted_eq_interp {v : List ℚ} {p : ℚ} (hn : 2 ≤ v.length)
    (hp0 : 0 < p) (hp1 : p < 1) : quantileSorted v p = some (interp v p) := by
  cases v with
  | nil => simp at hn
  | cons x xs =>
    have h1 : ¬(p ≤ 0 ∨ (x :: xs).length < 2) := by
      push_neg
      exact ⟨hp0, hn⟩
    have h2 : ¬(1 ≤ p) := not_le.mpr hp1
    simp only [quantileSorted]
    rw [if_neg h1, if_neg h2]

/- ### Lemmas about processRecordGroup -/

theorem processRecordGroup_inv {records : List HdbResaleRecord} {metric : BoxPlotMetric}
    {stats : BoxPlotStats} (h : processRecordGroup records metric = some stats) :
    (∃ r0 rest, records = r0 :: rest ∧ stats.month = r0.month) ∧
      5 ≤ (processedRecords records metric).length ∧
      stats.q1 = q1Of records metric ∧
      stats.median = medianOf records metric ∧
      stats.q3 = q3Of records metric ∧
      stats.min = (d3min (nonOutlierValuesOf records metric)).getD (q1Of records metric) ∧
      stats.max = (d3max (nonOutlierValuesOf records metric)).getD (q3Of records metric) ∧
      stats.outliers = outliersOf records metric := by
  cases records with
  | nil => simp [processRecordGroup] at h
  | cons r0 rest =>
    by_cases hlen : (processedRecords (r0 :: rest) metric).length < 5
    · simp [processRecordGroup, hlen] at h
    · simp only [processRecordGroup, if_neg hlen] at h
      have hx := Option.some.inj h
      subst hx
      exact ⟨⟨r0, rest, rfl, rfl⟩, by omega, rfl, rfl, rfl, rfl, rfl, rfl⟩

theorem sortedValuesOf_sorted (records : List HdbResaleRecord) (metric : BoxPlotMetric) :
    List.Sorted (· ≤ ·) (sortedValuesOf records metric) :=
  List.sorted_insertionSort _ _

theorem sortedValuesOf_length (records : List HdbResaleRecord) (metric : BoxPlotMetric) :
    (sortedValuesOf records metric).length = (processedRecords records metric).length := by
  unfold sortedValuesOf sortAsc
  rw [(List.perm_insertionSort _ _).length_eq, List.length_map]

theorem sortedValuesOf_mem {records : List HdbResaleRecord} {metric : BoxPlotMetric} {x : ℚ} :
    x ∈ sortedValuesOf records metric ↔ x ∈ (processedRecords records metric).map pval := by
  unfold sortedValuesOf sortAsc
  exact (List.perm_insertionSort _ _).mem_iff

theorem mem_nonOutlierValues {records : List HdbResaleRecord} {metric : BoxPlotMetric} {w : ℚ}
    (hw : w ∈ (processedRecords records metric).map pval)
    (h1 : lowerFenceOf records metric ≤ w) (h2 : w ≤ upperFenceOf records metric) :
    w ∈ nonOutlierValuesOf records metric := by
  obtain ⟨r, hr, rfl⟩ := List.mem_map.1 hw
  unfold nonOutlierValuesOf
  exact List.mem_map_of_mem pval (List.mem_filter.2 ⟨hr, by simpa using ⟨h1, h2⟩⟩)

theorem nonOutlierValues_subset {records : List HdbResaleRecord} {metric : BoxPlotMetric}
    {w : ℚ} (hw : w ∈ nonOutlierValuesOf records metric) :
    w ∈ (processedRecords records metric).map pval := by
  unfold nonOutlierValuesOf at hw
  obtain ⟨r, hr, rfl⟩ := List.mem_map.1 hw
  exact List.mem_map_of_mem pval (List.mem_filter.1 hr).1

theorem groupFacts {records : List HdbResaleRecord} {metric : BoxPlotMetric}
    (hlen : 5 ≤ (processedRecords records metric).length) :
    q1Of records metric ≤ medianOf records metric ∧
      medianOf records metric ≤ q3Of records metric ∧
      (∃ w ∈ nonOutlierValuesOf records metric, w ≤ medianOf records metric) ∧
      (∃ w ∈ nonOutlierValuesOf records metric, medianOf records metric ≤ w) := by
  set V := sortedValuesOf records metric with hV
  have hs : List.Sorted (· ≤ ·) V := sortedValuesOf_sorted records metric
  have hVlen : 5 ≤ V.length := by rw [hV, sortedValuesOf_length]; exact hlen
  have h2 : 2 ≤ V.length := by omega
  have hVne : V ≠ [] := by
    intro he
    rw [he] at hVlen
    simp at hVlen
  have hq1 : q1Of records metric = interp V 0.25 := by
    unfold q1Of
    rw [← hV, quantileSorted_eq_interp h2 (by norm_num) (by norm_num)]
    rfl
  have hmed : medianOf records metric = interp V 0.5 := by
    unfold medianOf
    rw [← hV, quantileSorted_eq_interp h2 (by norm_num) (by norm_num)]
    rfl
  have hq3 : q3Of records metric = interp V 0.75 := by
    unfold q3Of
    rw [← hV, quantileSorted_eq_interp h2 (by norm_num) (by norm_num)]
    rfl
  have hm1 : interp V 0.25 ≤ interp V 0.5 :=
    interp_mono hs h2 (by norm_num) (by norm_num) (by norm_num)
  have hm2 : interp V 0.5 ≤ interp V 0.75 :=
    interp_mono hs h2 (by norm_num) (by norm_num) (by norm_num)
  have hidx1 := qIdx_facts (v := V) (p := (0.25 : ℚ)) h2 (by norm_num) (by norm_num)
  have hidx2 := qIdx_facts (v := V) (p := (0.5 : ℚ)) h2 (by norm_num) (by norm_num)
  have hidx3 := qIdx_facts (v := V) (p := (0.75 : ℚ)) h2 (by norm_num) (by norm_num)
  have hVq : (5 : ℚ) ≤ (V.length : ℚ) := by exact_mod_cast hVlen
  have gap1 : qIdx V 0.25 + 1 ≤ qIdx V 0.5 := by
    have hlt : ((qIdx V 0.25 : ℕ) : ℚ) < ((qIdx V 0.5 : ℕ) : ℚ) := by
      nlinarith [hidx1.1, hidx2.2.1]
    have : qIdx V 0.25 < qIdx V 0.5 := by exact_mod_cast hlt
    omega
  have gap2 : qIdx V 0.5 + 1 ≤ qIdx V 0.75 := by
    have hlt : ((qIdx V 0.5 : ℕ) : ℚ) < ((qIdx V 0.75 : ℕ) : ℚ) := by
      nlinarith [hidx2.1, hidx3.2.1]
    have : qIdx V 0.5 < qIdx V 0.75 := by exact_mod_cast hlt
    omega
  have hi2 : qIdx V 0.5 < V.length := Nat.lt_of_succ_lt hidx2.2.2
  have hi2' : qIdx V 0.5 + 1 < V.length := hidx2.2.2
  have hb25 := interp_bounds (p := (0.25 : ℚ)) hs h2 (by norm_num) (by norm_num)
  have hb5 := interp_bounds (p := (0.5 : ℚ)) hs h2 (by norm_num) (by norm_num)
  have hb75 := interp_bounds (p := (0.75 : ℚ)) hs h2 (by norm_num) (by norm_num)
  have hwq1 : interp V 0.25 ≤ V.getD (qIdx V 0.5) 0 :=
    hb25.2.trans (sorted_getD_le hs gap1 hi2)
  have hwmed : V.getD (qIdx V 0.5) 0 ≤ interp V 0.5 := hb5.1
  have hw'med : interp V 0.5 ≤ V.getD (qIdx V 0.5 + 1) 0 := hb5.2
  have hw'q3 : V.getD (qIdx V 0.5 + 1) 0 ≤ interp V 0.75 :=
    (sorted_getD_le hs gap2 (Nat.lt_of_succ_lt hidx3.2.2)).trans hb75.1
  have hq13 : interp V 0.25 ≤ interp V 0.75 := hm1.trans hm2
  have hlf : lowerFenceOf records metric ≤ interp V 0.25 := by
    unfold lowerFenceOf
    rw [hq1, hq3]
    linarith
  have huf : interp V 0.75 ≤ upperFenceOf records metric := by
    unfold upperFenceOf
    rw [hq1, hq3]
    linarith
  have hwmem : V.getD (qIdx V 0.5) 0 ∈ (processedRecords records metric).map pval := by
    rw [← sortedValuesOf_mem, ← hV]
    exact getD_mem hi2
  have hw'mem : V.getD (qIdx V 0.5 + 1) 0 ∈ (processedRecords records metric).map pval := by
    rw [← sortedValuesOf_mem, ← hV]
    exact getD_mem hi2'
  have hw_nov : V.getD (qIdx V 0.5) 0 ∈ nonOutlierValuesOf records metric :=
    mem_nonOutlierValues hwmem (le_trans hlf hwq1)
      (le_trans (hwmed.trans hm2) huf)
  have hw'_nov : V.getD (qIdx V 0.5 + 1) 0 ∈ nonOutlierValuesOf records metric :=
    mem_nonOutlierValues hw'mem (le_trans hlf (hwq1.trans (hwmed.trans hw'med)))
      (le_trans hw'q3 huf)
  refine ⟨?_, ?_, ⟨_, hw_nov, ?_⟩, ⟨_, hw'_nov, ?_⟩⟩
  · rw [hq1, hmed]; exact hm1
  · rw [hmed, hq3]; exact hm2
  · rw [hmed]; exact hwmed
  · rw [hmed]; exact hw'med

theorem mem_calculateBoxPlotData {records : List HdbResaleRecord} {xDomain : List String}
    {metric : BoxPlotMetric} {stats : BoxPlotStats}
    (h : stats ∈ calculateBoxPlotData records xDomain metric) :
    ∃ month ∈ xDomain,
      processRecordGroup (records.filter (fun r => r.month == month)) metric = some stats := by
  unfold calculateBoxPlotData at h
  by_cases hre : records.isEmpty
  · rw [if_pos hre] at h; simp at h
  · rw [if_neg hre] at h
    have h2 := ((List.perm_insertionSort _ _).mem_iff).1 h
    obtain ⟨month, hm, hsome⟩ := List.mem_filterMap.1 h2
    by_cases hme : (records.filter (fun r => r.month == month)).isEmpty
    · rw [if_pos hme] at hsome; exact absurd hsome (by simp)
    · rw [if_neg hme] at hsome
      exact ⟨month, hm, hsome⟩

theorem stats_month_eq {records : List HdbResaleRecord} {metric : BoxPlotMetric}
    {month : String} {stats : BoxPlotStats}
    (h : processRecordGroup (records.filter (fun r => r.month == month)) metric = some stats) :
    stats.month = month := by
  obtain ⟨⟨r0, rest, hcons, hmon⟩, -⟩ := processRecordGroup_inv h
  have hr0 : r0 ∈ records.filter (fun r => r.month == month) :=
    hcons ▸ List.mem_cons_self r0 rest
  have hbeq := (List.mem_filter.1 hr0).2
  rw [hmon]
  exact eq_of_beq hbeq

/- ### Concrete inputs used by witnesses and counterexamples -/

/-- A one-month record with only a valid price (used to exercise the
`resale_price` metric). -/
def mkPriceRecord (p : ℚ) : HdbResaleRecord :=
  { month := "2024-01"
    town := "BEDOK"
    flat_type := "4 ROOM"
    resale_price := some p
    floor_area_sqm := none
    remaining_lease := none }

/-- Eight records whose derived values are [0, 0, 100, 100, 100, 100, 100, 100]:
q1 = 75, median = q3 = 100, IQR = 25, fences [37.5, 137.5], so both zeros are
outliers and the within-fence minimum 100 exceeds q1 = 75. -/
def cexRecords : List HdbResaleRecord :=
  [mkPriceRecord 0, mkPriceRecord 0, mkPriceRecord 100, mkPriceRecord 100,
   mkPriceRecord 100, mkPriceRecord 100, mkPriceRecord 100, mkPriceRecord 100]

/-- The outlier entry produced for each zero-priced record of `cexRecords`. -/
def cexOutlier : Outlier :=
  { price := 0
    resale_price := some 0
    flat_type := "4 ROOM"
    town := "BEDOK"
    remaining_lease := none
    floor_area_sqm := none }

/-- The stats entry `calculateBoxPlotData` emits for `cexRecords`. -/
def cexStats : BoxPlotStats :=
  { month := "2024-01"
    min := 100
    q1 := 75
    median := 100
    q3 := 100
    max := 100
    outliers := [cexOutlier, cexOutlier] }

/-- Five records with derived values [100, 200, 300, 400, 500]. -/
def witRecords : List HdbResaleRecord :=
  [mkPriceRecord 100, mkPriceRecord 200, mkPriceRecord 300, mkPriceRecord 400,
   mkPriceRecord 500]

/-- The stats entry `calculateBoxPlotData` emits for `witRecords`. -/
def witStats : BoxPlotStats :=
  { month := "2024-01"
    min := 100
    q1 := 200
    median := 300
    q3 := 400
    max := 500
    outliers := [] }

/- ### Concrete evaluations for `witRecords` -/

theorem witProcessed :
    processedRecords witRecords BoxPlotMetric.resale_price =
      [⟨some 100, some 100, "4 ROOM", "BEDOK", none, none⟩,
       ⟨some 200, some 200, "4 ROOM", "BEDOK", none, none⟩,
       ⟨some 300, some 300, "4 ROOM", "BEDOK", none, none⟩,
       ⟨some 400, some 400, "4 ROOM", "BEDOK", none, none⟩,
       ⟨some 500, some 500, "4 ROOM", "BEDOK", none, none⟩] := by
  simp [processedRecords, mapRecord, keepProcessed, mkPriceRecord, witRecords]

theorem witVals :
    (processedRecords witRecords BoxPlotMetric.resale_price).map pval
      = [100, 200, 300, 400, 500] := by
  rw [witProcessed]
  norm_num [pval, Option.getD_some]

theorem witSortedVals :
    sortedValuesOf witRecords BoxPlotMetric.resale_price = [100, 200, 300, 400, 500] := by
  rw [sortedValuesOf, witVals]
  norm_num [sortAsc, List.insertionSort, List.orderedInsert]

theorem witQ1 : q1Of witRecords BoxPlotMetric.resale_price = 200 := by
  rw [q1Of, witSortedVals]
  norm_num [quantileSorted, interp, qIdx]

theorem witMedian : medianOf witRecords BoxPlotMetric.resale_price = 300 := by
  rw [medianOf, witSortedVals]
  norm_num [quantileSorted, interp, qIdx, show ((2 : ℤ)).toNat = 2 from rfl]

theorem witQ3 : q3Of witRecords BoxPlotMetric.resale_price = 400 := by
  rw [q3Of, witSortedVals]
  norm_num [quantileSorted, interp, qIdx, show ((3 : ℤ)).toNat = 3 from rfl]

theorem witLF : lowerFenceOf witRecords BoxPlotMetric.resale_price = -100 := by
  rw [lowerFenceOf, witQ1, witQ3]
  norm_num

theorem witUF : upperFenceOf witRecords BoxPlotMetric.resale_price = 700 := by
  rw [upperFenceOf, witQ1, witQ3]
  norm_num

theorem witNov :
    nonOutlierValuesOf witRecords BoxPlotMetric.resale_price = [100, 200, 300, 400, 500] := by
  rw [nonOutlierValuesOf, witProcessed, witLF, witUF]
  norm_num [pval, List.filter_cons, decide_eq_true_eq]

theorem witOut : outliersOf witRecords BoxPlotMetric.resale_price = [] := by
  rw [outliersOf, witProcessed, witLF, witUF]
  norm_num [pval, List.filter_cons, decide_eq_true_eq]

theorem witGroup :
    processRecordGroup witRecords BoxPlotMetric.resale_price = some witStats := by
  rw [show witRecords = mkPriceRecord 100 :: [mkPriceRecord 200, mkPriceRecord 300,
    mkPriceRecord 400, mkPriceRecord 500] from rfl, processRecordGroup]
  rw [show (mkPriceRecord 100 :: [mkPriceRecord 200, mkPriceRecord 300,
    mkPriceRecord 400, mkPriceRecord 500]) = witRecords from rfl]
  rw [if_neg (by rw [witProcessed]; norm_num)]
  rw [witQ1, witMedian, witQ3, witNov, witOut]
  norm_num [witStats, d3min, d3max, min_def, max_def, mkPriceRecord]

theorem witFil : witRecords.filter (fun r => r.month == "2024-01") = witRecords := by
  simp [witRecords, mkPriceRecord]

theorem witBoxData :
    calculateBoxPlotData witRecords ["2024-01"] BoxPlotMetric.resale_price = [witStats] := by
  rw [calculateBoxPlotData]
  rw [if_neg (by norm_num [witRecords])]
  simp only [List.filterMap_cons, List.filterMap_nil, witFil, witGroup]
  rw [if_neg (by norm_num [witRecords])]
  rfl

/- ### Concrete evaluations for `cexRecords` -/

theorem cexProcessed :
    processedRecords cexRecords BoxPlotMetric.resale_price =
      [⟨some 0, some 0, "4 ROOM", "BEDOK", none, none⟩,
       ⟨some 0, some 0, "4 ROOM", "BEDOK", none, none⟩,
       ⟨some 100, some 100, "4 ROOM", "BEDOK", none, none⟩,
       ⟨some 100, some 100, "4 ROOM", "BEDOK", none, none⟩,
       ⟨some 100, some 100, "4 ROOM", "BEDOK", none, none⟩,
       ⟨some 100, some 100, "4 ROOM", "BEDOK", none, none⟩,
       ⟨some 100, some 100, "4 ROOM", "BEDOK", none, none⟩,
       ⟨some 100, some 100, "4 ROOM", "BEDOK", none, none⟩] := by
  simp [processedRecords, mapRecord, keepProcessed, mkPriceRecord, cexRecords]

theorem cexVals :
    (processedRecords cexRecords BoxPlotMetric.resale_price).map pval
      = [0, 0, 100, 100, 100, 100, 100, 100] := by
  rw [cexProcessed]
  norm_num [pval, Option.getD_some]

theorem cexSortedVals :
    sortedValuesOf cexRecords BoxPlotMetric.resale_price
      = [0, 0, 100, 100, 100, 100, 100, 100] := by
  rw [sortedValuesOf, cexVals]
  norm_num [sortAsc, List.insertionSort, List.orderedInsert]

theorem cexQ1 : q1Of cexRecords BoxPlotMetric.resale_price = 75 := by
  rw [q1Of, cexSortedVals]
  norm_num [quantileSorted, interp, qIdx]

theorem cexMedian : medianOf cexRecords BoxPlotMetric.resale_price = 100 := by
  rw [medianOf, cexSortedVals]
  norm_num [quantileSorted, interp, qIdx, show ((3 : ℤ)).toNat = 3 from rfl]

theorem cexQ3 : q3Of cexRecords BoxPlotMetric.resale_price = 100 := by
  rw [q3Of, cexSortedVals]
  norm_num [quantileSorted, interp, qIdx, show ((5 : ℤ)).toNat = 5 from rfl]

theorem cexLF : lowerFenceOf cexRecords BoxPlotMetric.resale_price = 37.5 := by
  rw [lowerFenceOf, cexQ1, cexQ3]
  norm_num

theorem cexUF : upperFenceOf cexRecords BoxPlotMetric.resale_price = 137.5 := by
  rw [upperFenceOf, cexQ1, cexQ3]
  norm_num

theorem cexNov :
    nonOutlierValuesOf cexRecords BoxPlotMetric.resale_price
      = [100, 100, 100, 100, 100, 100] := by
  rw [nonOutlierValuesOf, cexProcessed, cexLF, cexUF]
  norm_num [pval, List.filter_cons, decide_eq_true_eq]

theorem cexOut :
    outliersOf cexRecords BoxPlotMetric.resale_price = [cexOutlier, cexOutlier] := by
  rw [outliersOf, cexProcessed, cexLF, cexUF]
  norm_num [pval, List.filter_cons, decide_eq_true_eq, cexOutlier]

theorem cexGroup :
    processRecordGroup cexRecords BoxPlotMetric.resale_price = some cexStats := by
  rw [show cexRecords = mkPriceRecord 0 :: [mkPriceRecord 0, mkPriceRecord 100,
    mkPriceRecord 100, mkPriceRecord 100, mkPriceRecord 100, mkPriceRecord 100,
    mkPriceRecord 100] from rfl, processRecordGroup]
  rw [show (mkPriceRecord 0 :: [mkPriceRecord 0, mkPriceRecord 100, mkPriceRecord 100,
    mkPriceRecord 100, mkPriceRecord 100, mkPriceRecord 100, mkPriceRecord 100])
    = cexRecords from rfl]
  rw [if_neg (by rw [cexProcessed]; norm_num)]
  rw [cexQ1, cexMedian, cexQ3, cexNov, cexOut]
  norm_num [cexStats, d3min, d3max, min_def, max_def, mkPriceRecord]

theorem cexFil : cexRecords.filter (fun r => r.month == "2024-01") = cexRecords := by
  simp [cexRecords, mkPriceRecord]

theorem cexBoxData :
    calculateBoxPlotData cexRecords ["2024-01"] BoxPlotMetric.resale_price = [cexStats] := by
  rw [calculateBoxPlotData]
  rw [if_neg (by norm_num [cexRecords])]
  simp only [List.filterMap_cons, List.filterMap_nil, cexFil, cexGroup]
  rw [if_neg (by norm_num [cexRecords])]
  rfl

/- ### Claim C1 -/

/-- C1 counterexample: the claim "q1 ≤ median ≤ q3, min ≤ q1 and max ≥ q3 for
every emitted box-plot entry" is false: for `cexRecords` the emitted entry has
min = 100 > q1 = 75 (min and max range over within-fence values only, which
can all sit above q1). -/
theorem boxPlot_min_le_q1_cex :
    ¬ ∀ (records : List HdbResaleRecord) (xDomain : List String) (metric : BoxPlotMetric)
        (stats : BoxPlotStats), stats ∈ calculateBoxPlotData records xDomain metric →
        stats.q1 ≤ stats.median ∧ stats.median ≤ stats.q3 ∧
          stats.min ≤ stats.q1 ∧ stats.q3 ≤ stats.max := by
  intro hall
  have hmem : cexStats ∈ calculateBoxPlotData cexRecords ["2024-01"]
      BoxPlotMetric.resale_price := by rw [cexBoxData]; simp
  have hc := (hall _ _ _ _ hmem).2.2.1
  exact absurd hc (by norm_num [cexStats])

/-- C1 (amended): every stats entry emitted by `calculateBoxPlotData`
satisfies q1 ≤ median ≤ q3, and its within-fence min and max satisfy
min ≤ median and median ≤ max (min ≤ q1 and max ≥ q3 fail in general, see the
counterexample). -/
theorem boxPlot_quartile_order {records : List HdbResaleRecord} {xDomain : List String}
    {metric : BoxPlotMetric} {stats : BoxPlotStats}
    (h : stats ∈ calculateBoxPlotData records xDomain metric) :
    stats.q1 ≤ stats.median ∧ stats.median ≤ stats.q3 ∧
      stats.min ≤ stats.median ∧ stats.median ≤ stats.max := by
  obtain ⟨month, hm, hsome⟩ := mem_calculateBoxPlotData h
  obtain ⟨-, hlen, hq1, hmed, hq3, hmin, hmax, -⟩ := processRecordGroup_inv hsome
  obtain ⟨h1, h2, ⟨w, hw, hwle⟩, ⟨w', hw', hw'ge⟩⟩ := groupFacts hlen
  have hne : nonOutlierValuesOf (records.filter (fun r => r.month == month)) metric ≠ [] :=
    List.ne_nil_of_mem hw
  refine ⟨by rw [hq1, hmed]; exact h1, by rw [hmed, hq3]; exact h2, ?_, ?_⟩
  · cases hdm : d3min (nonOutlierValuesOf (records.filter (fun r => r.month == month)) metric) with
    | none => exact absurd (d3min_eq_none_iff.1 hdm) hne
    | some mn =>
      rw [hmin, hmed, hdm, Option.getD_some]
      exact (d3min_le hdm w hw).trans hwle
  · cases hdm : d3max (nonOutlierValuesOf (records.filter (fun r => r.month == month)) metric) with
    | none => exact absurd (d3max_eq_none_iff.1 hdm) hne
    | some mx =>
      rw [hmax, hmed, hdm, Option.getD_some]
      exact hw'ge.trans (d3max_ge hdm w' hw')

/-- C1 witness: the amended statement evaluated on `witRecords`. -/
theorem boxPlot_quartile_order_witness :
    witStats.q1 ≤ witStats.median ∧ witStats.median ≤ witStats.q3 ∧
      witStats.min ≤ witStats.median ∧ witStats.median ≤ witStats.max :=
  boxPlot_quartile_order
    (show witStats ∈ calculateBoxPlotData witRecords ["2024-01"] BoxPlotMetric.resale_price
      by rw [witBoxData]; simp)

/- ### Claim C4 -/

/-- C4: a period whose record group yields fewer than 5 valid processed
records contributes no entry to the box-plot output, even when it is listed
in `xDomain`. -/
theorem boxPlot_sparse_period_omitted {records : List HdbResaleRecord}
    {xDomain : List String} {metric : BoxPlotMetric} {month : String}
    (hsparse : (processedRecords (records.filter (fun r => r.month == month)) metric).length < 5) :
    ∀ stats ∈ calculateBoxPlotData records xDomain metric, stats.month ≠ month := by
  intro stats hmem heq
  obtain ⟨m', hm', hsome⟩ := mem_calculateBoxPlotData hmem
  have hmonth : stats.month = m' := stats_month_eq hsome
  have hmm : m' = month := by rw [← hmonth, heq]
  subst hmm
  obtain ⟨-, hlen, -⟩ := processRecordGroup_inv hsome
  omega

theorem witFil2 :
    witRecords.filter (fun r => r.month == "2024-02") = ([] : List HdbResaleRecord) := by
  simp [witRecords, mkPriceRecord]

theorem witBoxData2 :
    calculateBoxPlotData witRecords ["2024-01", "2024-02"] BoxPlotMetric.resale_price
      = [witStats] := by
  rw [calculateBoxPlotData]
  rw [if_neg (by norm_num [witRecords])]
  simp only [List.filterMap_cons, List.filterMap_nil, witFil, witFil2, witGroup]
  rw [if_neg (by norm_num [witRecords])]
  rfl

/-- C4 witness: `witRecords` has no record in 2024-02, so the entry it does
emit (over the two-period domain including 2024-02) does not carry that
month. -/
theorem boxPlot_sparse_period_omitted_witness : witStats.month ≠ "2024-02" :=
  boxPlot_sparse_period_omitted
    (show (processedRecords (witRecords.filter (fun r => r.month == "2024-02"))
        BoxPlotMetric.resale_price).length < 5
      by simp [witRecords, mkPriceRecord, processedRecords])
    witStats (by rw [witBoxData2]; simp)

/- ### Claim C8 -/

/-- C8: whenever a stats entry is emitted, at least one value lies within the
fences, the `?? q1` / `?? q3` fallbacks are dead (both `d3min`/`d3max` return
a value), and the reported min and max are values of processed records. -/
theorem boxPlot_minmax_observed {records : List HdbResaleRecord} {metric : BoxPlotMetric}
    {stats : BoxPlotStats} (h : processRecordGroup records metric = some stats) :
    nonOutlierValuesOf records metric ≠ [] ∧
      (d3min (nonOutlierValuesOf records metric)).isSome = true ∧
      (d3max (nonOutlierValuesOf records metric)).isSome = true ∧
      stats.min ∈ (processedRecords records metric).map pval ∧
      stats.max ∈ (processedRecords records metric).map pval := by
  obtain ⟨-, hlen, -, -, -, hmin, hmax, -⟩ := processRecordGroup_inv h
  obtain ⟨-, -, ⟨w, hw, -⟩, -⟩ := groupFacts hlen
  have hne : nonOutlierValuesOf records metric ≠ [] := List.ne_nil_of_mem hw
  refine ⟨hne, d3min_isSome hne, d3max_isSome hne, ?_, ?_⟩
  · cases hdm : d3min (nonOutlierValuesOf records metric) with
    | none => exact absurd (d3min_eq_none_iff.1 hdm) hne
    | some mn =>
      rw [hmin, hdm, Option.getD_some]
      exact nonOutlierValues_subset (d3min_mem hdm)
  · cases hdm : d3max (nonOutlierValuesOf records metric) with
    | none => exact absurd (d3max_eq_none_iff.1 hdm) hne
    | some mx =>
      rw [hmax, hdm, Option.getD_some]
      exact nonOutlierValues_subset (d3max_mem hdm)

/-- C8 witness: the statement evaluated on `witRecords`. -/
theorem boxPlot_minmax_observed_witness :
    nonOutlierValuesOf witRecords BoxPlotMetric.resale_price ≠ [] ∧
      (d3min (nonOutlierValuesOf witRecords BoxPlotMetric.resale_price)).isSome = true ∧
      (d3max (nonOutlierValuesOf witRecords BoxPlotMetric.resale_price)).isSome = true ∧
      witStats.min ∈ (processedRecords witRecords BoxPlotMetric.resale_price).map pval ∧
      witStats.max ∈ (processedRecords witRecords BoxPlotMetric.resale_price).map pval :=
  boxPlot_minmax_observed witGroup

/- ### Claim C5 -/

theorem filter_map_pval {P : ℚ → Bool} {f : ProcessedRecord → Bool}
    (hf : ∀ r, f r = P (pval r)) :
    ∀ l : List ProcessedRecord, (l.filter f).map pval = (l.map pval).filter P := by
  intro l
  induction l with
  | nil => rfl
  | cons a t ih =>
    rw [List.filter_cons, List.map_cons, List.filter_cons, hf a]
    by_cases hp : P (pval a)
    · simp [hp, ih]
    · simp [hp, ih]

/-- C5: in every emitted stats entry, the outlier prices are exactly the
processed values strictly outside the fences, min and max are computed over
exactly the complementary within-fence values, and for every processed value
the two conditions are mutually exclusive and exhaustive. -/
theorem boxPlot_outlier_partition {records : List HdbResaleRecord} {metric : BoxPlotMetric}
    {stats : BoxPlotStats} (h : processRecordGroup records metric = some stats) :
    stats.outliers.map (fun o => o.price)
        = ((processedRecords records metric).map pval).filter
            (fun v => decide (v < stats.q1 - 1.5 * (stats.q3 - stats.q1) ∨
              stats.q3 + 1.5 * (stats.q3 - stats.q1) < v)) ∧
      stats.min = (d3min (((processedRecords records metric).map pval).filter
          (fun v => decide (stats.q1 - 1.5 * (stats.q3 - stats.q1) ≤ v ∧
            v ≤ stats.q3 + 1.5 * (stats.q3 - stats.q1))))).getD stats.q1 ∧
      stats.max = (d3max (((processedRecords records metric).map pval).filter
          (fun v => decide (stats.q1 - 1.5 * (stats.q3 - stats.q1) ≤ v ∧
            v ≤ stats.q3 + 1.5 * (stats.q3 - stats.q1))))).getD stats.q3 ∧
      ∀ v ∈ (processedRecords records metric).map pval,
        (v < stats.q1 - 1.5 * (stats.q3 - stats.q1) ∨
            stats.q3 + 1.5 * (stats.q3 - stats.q1) < v) ↔
          ¬(stats.q1 - 1.5 * (stats.q3 - stats.q1) ≤ v ∧
            v ≤ stats.q3 + 1.5 * (stats.q3 - stats.q1)) := by
  obtain ⟨-, -, hq1, -, hq3, hmin, hmax, hout⟩ := processRecordGroup_inv h
  rw [hq1, hq3, hmin, hmax, hout]
  rw [show q1Of records metric - 1.5 * (q3Of records metric - q1Of records metric)
    = lowerFenceOf records metric from rfl]
  rw [show q3Of records metric + 1.5 * (q3Of records metric - q1Of records metric)
    = upperFenceOf records metric from rfl]
  have hcomm1 := filter_map_pval
    (P := fun v => decide (v < lowerFenceOf records metric ∨
      upperFenceOf records metric < v))
    (f := fun r => decide (pval r < lowerFenceOf records metric ∨
      upperFenceOf records metric < pval r))
    (fun r => rfl) (processedRecords records metric)
  have hcomm2 : nonOutlierValuesOf records metric
      = ((processedRecords records metric).map pval).filter
          (fun v => decide (lowerFenceOf records metric ≤ v ∧
            v ≤ upperFenceOf records metric)) :=
    filter_map_pval
      (P := fun v => decide (lowerFenceOf records metric ≤ v ∧
        v ≤ upperFenceOf records metric))
      (f := fun r => decide (lowerFenceOf records metric ≤ pval r ∧
        pval r ≤ upperFenceOf records metric))
      (fun r => rfl) (processedRecords records metric)
  refine ⟨?_, ?_, ?_, ?_⟩
  · unfold outliersOf
    rw [List.map_map]
    exact hcomm1
  · rw [hcomm2]
  · rw [hcomm2]
  · intro v _
    rw [not_and_or, not_le, not_le]

/-- C5 witness: the statement evaluated on `cexRecords` (which has two
outliers). -/
theorem boxPlot_outlier_partition_witness :
    cexStats.outliers.map (fun o => o.price)
        = ((processedRecords cexRecords BoxPlotMetric.resale_price).map pval).filter
            (fun v => decide (v < cexStats.q1 - 1.5 * (cexStats.q3 - cexStats.q1) ∨
              cexStats.q3 + 1.5 * (cexStats.q3 - cexStats.q1) < v)) ∧
      cexStats.min = (d3min (((processedRecords cexRecords BoxPlotMetric.resale_price).map
          pval).filter
          (fun v => decide (cexStats.q1 - 1.5 * (cexStats.q3 - cexStats.q1) ≤ v ∧
            v ≤ cexStats.q3 + 1.5 * (cexStats.q3 - cexStats.q1))))).getD cexStats.q1 ∧
      cexStats.max = (d3max (((processedRecords cexRecords BoxPlotMetric.resale_price).map
          pval).filter
          (fun v => decide (cexStats.q1 - 1.5 * (cexStats.q3 - cexStats.q1) ≤ v ∧
            v ≤ cexStats.q3 + 1.5 * (cexStats.q3 - cexStats.q1))))).getD cexStats.q3 ∧
      ∀ v ∈ (processedRecords cexRecords BoxPlotMetric.resale_price).map pval,
        (v < cexStats.q1 - 1.5 * (cexStats.q3 - cexStats.q1) ∨
            cexStats.q3 + 1.5 * (cexStats.q3 - cexStats.q1) < v) ↔
          ¬(cexStats.q1 - 1.5 * (cexStats.q3 - cexStats.q1) ≤ v ∧
            v ≤ cexStats.q3 + 1.5 * (cexStats.q3 - cexStats.q1)) :=
  boxPlot_outlier_partition cexGroup

/- ### Claim C3 -/

/-- C3: the lease parser returns `years + months/12` on inputs matching the
"`<int>` year(s) [optional `<int>` month(s)]" pattern (stated both through the
regex matcher and generatively for pattern-shaped strings), `null` for an
absent input, the empty string, or any string the regex does not match; being
a total function it never raises. -/
theorem parseLease_spec :
    parseRemainingLeaseToYears (some "69 years 04 months") = some (69 + 4 / 12) ∧
      parseRemainingLeaseToYears (some "99 years") = some 99 ∧
      parseRemainingLeaseToYears (some "") = none ∧
      parseRemainingLeaseToYears none = none ∧
      parseRemainingLeaseToYears (some "garbage") = none ∧
      (∀ s : String, ∀ y m : ℕ, s ≠ "" → findLeaseMatch s.toList = some (y, m) →
        parseRemainingLeaseToYears (some s) = some ((y : ℚ) + (m : ℚ) / 12)) ∧
      (∀ s : String, findLeaseMatch s.toList = none →
        parseRemainingLeaseToYears (some s) = none) ∧
      (∀ ds ms : List Char, ds ≠ [] → (∀ c ∈ ds, isAsciiDigit c = true) →
        ms ≠ [] → (∀ c ∈ ms, isAsciiDigit c = true) →
        parseRemainingLeaseToYears (some (String.mk (ds ++ [' '] ++
            ('y' :: 'e' :: 'a' :: 'r' :: 's' :: ' ' ::
              (ms ++ [' ', 'm', 'o', 'n', 't', 'h', 's'])))))
          = some ((digitsToNat ds : ℚ) + (digitsToNat ms : ℚ) / 12)) ∧
      (∀ ds : List Char, ds ≠ [] → (∀ c ∈ ds, isAsciiDigit c = true) →
        parseRemainingLeaseToYears (some (String.mk (ds ++ [' '] ++
            ('y' :: 'e' :: 'a' :: 'r' :: ['s']))))
          = some ((digitsToNat ds : ℚ))) := by
  refine ⟨?_, ?_, rfl, rfl, ?_, ?_, ?_, ?_, ?_⟩
  · have h : findLeaseMatch ("69 years 04 months").toList = some (69, 4) := by decide
    rw [parse_of_match (by decide) h]
    norm_num
  · have h : findLeaseMatch ("99 years").toList = some (99, 0) := by decide
    rw [parse_of_match (by decide) h]
    norm_num
  · exact parse_of_no_match (by decide)
  · intro s y m hs h
    exact parse_of_match (fun he => hs (by
      cases s with
      | mk l =>
        simp only [String.toList] at he
        simp [he])) h
  · intro s h
    exact parse_of_no_match h
  · intro ds ms hds hdd hms hmd
    obtain ⟨d0, dt, rfl⟩ := List.exists_cons_of_ne_nil hds
    have hm := matchYearsAt_eq (d0 :: dt) [' ']
      ('s' :: ' ' :: (ms ++ [' ', 'm', 'o', 'n', 't', 'h', 's'])) hds hdd
      (by simp) (by intro c hc; simp at hc; subst hc; decide)
    have hmm : matchMonthsAt (' ' :: (ms ++ [' ', 'm', 'o', 'n', 't', 'h', 's']))
        = digitsToNat ms := by
      have hsh : (' ' :: (ms ++ [' ', 'm', 'o', 'n', 't', 'h', 's'])) =
          [' '] ++ ms ++ [' '] ++ ('m' :: 'o' :: 'n' :: 't' :: 'h' :: ['s']) := by
        simp
      rw [hsh]
      exact matchMonthsAt_eq [' '] ms [' '] ['s'] (by simp) (by
          intro c hc; simp at hc; subst hc; decide) hms hmd (by simp) (by
          intro c hc; simp at hc; subst hc; decide)
    rw [stripS] at hm
    rw [hmm] at hm
    have hcons : ((d0 :: dt) ++ [' '] ++
        ('y' :: 'e' :: 'a' :: 'r' :: 's' :: ' ' :: (ms ++ [' ', 'm', 'o', 'n', 't', 'h', 's'])))
        = d0 :: (dt ++ [' '] ++
          ('y' :: 'e' :: 'a' :: 'r' :: 's' :: ' ' ::
            (ms ++ [' ', 'm', 'o', 'n', 't', 'h', 's']))) := by
      simp
    have hfind := findLeaseMatch_cons (hcons ▸ hm)
    rw [← hcons] at hfind
    exact parse_of_match (by simp) hfind
  · intro ds hds hdd
    obtain ⟨d0, dt, rfl⟩ := List.exists_cons_of_ne_nil hds
    have hm := matchYearsAt_eq (d0 :: dt) [' '] ['s'] hds hdd
      (by simp) (by intro c hc; simp at hc; subst hc; decide)
    rw [stripS] at hm
    rw [show matchMonthsAt ([] : List Char) = 0 from rfl] at hm
    have hcons : ((d0 :: dt) ++ [' '] ++ ('y' :: 'e' :: 'a' :: 'r' :: ['s']))
        = d0 :: (dt ++ [' '] ++ ('y' :: 'e' :: 'a' :: 'r' :: ['s'])) := by
      simp
    have hfind := findLeaseMatch_cons (hcons ▸ hm)
    rw [← hcons] at hfind
    rw [parse_of_match (by simp) hfind]
    norm_num

/-- C3 witness: the generative months clause applied at "69 years 04 months"
built from its digit lists. -/
theorem parseLease_spec_witness :
    parseRemainingLeaseToYears (some (String.mk (['6', '9'] ++ [' '] ++
        ('y' :: 'e' :: 'a' :: 'r' :: 's' :: ' ' ::
          (['0', '4'] ++ [' ', 'm', 'o', 'n', 't', 'h', 's'])))))
      = some ((digitsToNat ['6', '9'] : ℚ) + (digitsToNat ['0', '4'] : ℚ) / 12) :=
  parseLease_spec.2.2.2.2.2.2.2.1 ['6', '9'] ['0', '4']
    (by decide) (by decide) (by decide) (by decide)

/- ### Claim C9 -/

/-- C9: the lease regex is unanchored: any string containing
digits-whitespace-"year" as an infix parses to a non-null value, computed from
the leftmost match — e.g. "sold with 5 years left" parses to 5. -/
theorem parseLease_unanchored :
    (∀ pre ds sp suf : List Char, ds ≠ [] → (∀ c ∈ ds, isAsciiDigit c = true) →
      sp ≠ [] → (∀ c ∈ sp, isJsSpace c = true) →
      (parseRemainingLeaseToYears (some (String.mk
        (pre ++ (ds ++ sp ++ ('y' :: 'e' :: 'a' :: 'r' :: suf)))))).isSome = true) ∧
      parseRemainingLeaseToYears (some "sold with 5 years left") = some 5 := by
  constructor
  · intro pre ds sp suf hds hdd hsp hss
    have hm := matchYearsAt_eq ds sp suf hds hdd hsp hss
    have hsuffix : (ds ++ sp ++ ('y' :: 'e' :: 'a' :: 'r' :: suf)) <:+
        (pre ++ (ds ++ sp ++ ('y' :: 'e' :: 'a' :: 'r' :: suf))) :=
      List.suffix_append pre _
    have hfind := findLeaseMatch_of_suffix hsuffix (by rw [hm]; simp)
    obtain ⟨d0, dt, rfl⟩ := List.exists_cons_of_ne_nil hds
    cases hfm : findLeaseMatch (pre ++ ((d0 :: dt) ++ sp ++
        ('y' :: 'e' :: 'a' :: 'r' :: suf))) with
    | none => exact absurd hfm hfind
    | some r =>
      obtain ⟨y, m⟩ := r
      rw [parse_of_match (by simp) hfm]
      rfl
  · have h : findLeaseMatch ("sold with 5 years left").toList = some (5, 0) := by decide
    rw [parse_of_match (by decide) h]
    norm_num

/-- C9 witness: the unanchored clause applied to the decomposition of
"sold with 5 years left". -/
theorem parseLease_unanchored_witness :
    (parseRemainingLeaseToYears (some (String.mk
      (['s', 'o', 'l', 'd', ' ', 'w', 'i', 't', 'h', ' '] ++ (['5'] ++ [' '] ++
        ('y' :: 'e' :: 'a' :: 'r' :: ['s', ' ', 'l', 'e', 'f', 't'])))))).isSome = true :=
  parseLease_unanchored.1 ['s', 'o', 'l', 'd', ' ', 'w', 'i', 't', 'h', ' ']
    ['5'] [' '] ['s', ' ', 'l', 'e', 'f', 't']
    (by decide) (by decide) (by decide) (by decide)

/- ### Claim C10 -/

/-- C10: on an empty record collection `calculateGlobalYDomain` returns the
fixed fallback domain `[0, 1000000]` for every metric (not `[0, 0]` and not
the `[0, max*1.05]` formula). -/
theorem globalYDomain_empty_fallback :
    ∀ metric : BoxPlotMetric, calculateGlobalYDomain [] metric = (0, 1000000) := by
  intro metric
  rfl

/- ### Claim C6 -/

theorem globalMaxStep_ge {metric : BoxPlotMetric} {records : List HdbResaleRecord}
    (acc : ℚ) (month : String) : acc ≤ globalMaxStep metric records acc month := by
  unfold globalMaxStep
  cases hm : processRecordGroup (records.filter (fun r => r.month == month)) metric with
  | none => exact le_refl acc
  | some stats =>
    simp only []
    split_ifs with hlt
    · exact le_of_lt hlt
    · exact le_refl acc

theorem foldl_globalMaxStep_ge {metric : BoxPlotMetric} {records : List HdbResaleRecord} :
    ∀ (l : List String) (acc : ℚ), acc ≤ l.foldl (globalMaxStep metric records) acc := by
  intro l
  induction l with
  | nil => intro acc; exact le_refl acc
  | cons m t ih =>
    intro acc
    rw [List.foldl_cons]
    exact (globalMaxStep_ge acc m).trans (ih _)

theorem monthMax_le_foldl {metric : BoxPlotMetric} {records : List HdbResaleRecord}
    {month : String} {stats : BoxPlotStats}
    (hsome : processRecordGroup (records.filter (fun r => r.month == month)) metric
      = some stats) :
    ∀ (l : List String) (acc : ℚ), month ∈ l →
      monthMaxOf stats ≤ l.foldl (globalMaxStep metric records) acc := by
  intro l
  induction l with
  | nil => intro acc hmem; simp at hmem
  | cons m t ih =>
    intro acc hmem
    rw [List.foldl_cons]
    rcases List.mem_cons.1 hmem with heq | hmemt
    · subst heq
      refine le_trans ?_ (foldl_globalMaxStep_ge t _)
      unfold globalMaxStep
      rw [hsome]
      simp only []
      split_ifs with hlt
      · exact le_refl _
      · exact not_lt.1 hlt
    · exact ih _ hmemt

/-- C6: the global value domain always has lower bound 0, and for every period
present in the full dataset whose group yields a stats entry, the upper bound
is at least 1.05 times the entry's `max` and 1.05 times each of its outlier
values. -/
theorem globalYDomain_bounds :
    (∀ (records : List HdbResaleRecord) (metric : BoxPlotMetric),
      (calculateGlobalYDomain records metric).1 = 0) ∧
      ∀ (records : List HdbResaleRecord) (metric : BoxPlotMetric) (month : String)
        (stats : BoxPlotStats) (x : ℚ),
        month ∈ records.map (fun r => r.month) →
        processRecordGroup (records.filter (fun r => r.month == month)) metric
          = some stats →
        x ∈ stats.max :: stats.outliers.map (fun o => o.price) →
        x * 1.05 ≤ (calculateGlobalYDomain records metric).2 := by
  constructor
  · intro records metric
    unfold calculateGlobalYDomain
    split_ifs <;> rfl
  · intro records metric month stats x hmonth hsome hx
    have hne : ¬records.isEmpty = true := by
      cases records with
      | nil => simp at hmonth
      | cons a t => simp
    unfold calculateGlobalYDomain
    rw [if_neg hne]
    show x * 1.05 ≤ ((monthsOf records).foldl (globalMaxStep metric records) 0) * 1.05
    have hxle : x ≤ monthMaxOf stats := by
      unfold monthMaxOf
      cases hd : d3max (stats.max :: stats.outliers.map (fun o => o.price)) with
      | none => exact absurd (d3max_eq_none_iff.1 hd) (by simp)
      | some mx =>
        rw [Option.getD_some]
        exact d3max_ge hd x hx
    have hmem' : month ∈ monthsOf records := by
      unfold monthsOf
      exact List.mem_dedup.2 hmonth
    have hfold := monthMax_le_foldl hsome (monthsOf records) 0 hmem'
    have hxf : x ≤ (monthsOf records).foldl (globalMaxStep metric records) 0 :=
      hxle.trans hfold
    have h105 : (0 : ℚ) ≤ 1.05 := by norm_num
    exact mul_le_mul_of_nonneg_right hxf h105

/-- C6 witness: for `witRecords` and the emitted `witStats`, the upper bound
dominates 1.05 times its `max`. -/
theorem globalYDomain_bounds_witness :
    (500 : ℚ) * 1.05 ≤ (calculateGlobalYDomain witRecords BoxPlotMetric.resale_price).2 :=
  globalYDomain_bounds.2 witRecords BoxPlotMetric.resale_price "2024-01" witStats 500
    (by simp [witRecords, mkPriceRecord])
    (by rw [witFil]; exact witGroup)
    (by simp [witStats])

/- ### Claim C7 -/

theorem tally_month : ∀ (l : List HdbResaleRecord) (acc : StackedBarChartDataPoint),
    (l.foldl tallyRecord acc).month = acc.month := by
  intro l
  induction l with
  | nil => intro acc; rfl
  | cons r t ih =>
    intro acc
    rw [List.foldl_cons, ih]
    unfold tallyRecord
    cases r.resale_price with
    | none => rfl
    | some p =>
      simp only []
      split_ifs <;> rfl

theorem tally_total : ∀ (l : List HdbResaleRecord) (acc : StackedBarChartDataPoint),
    (l.foldl tallyRecord acc).totalTransactions
      = acc.totalTransactions + (l.filterMap (fun r => r.resale_price)).length := by
  intro l
  induction l with
  | nil => intro acc; simp
  | cons r t ih =>
    intro acc
    rw [List.foldl_cons, ih, List.filterMap_cons]
    cases hp : r.resale_price with
    | none => rw [show tallyRecord acc r = acc from by unfold tallyRecord; rw [hp]]
    | some p =>
      have hstep : (tallyRecord acc r).totalTransactions = acc.totalTransactions + 1 := by
        unfold tallyRecord
        rw [hp]
        simp only []
        split_ifs <;> rfl
      rw [hstep, List.length_cons]
      omega

theorem tally_cat1 : ∀ (l : List HdbResaleRecord) (acc : StackedBarChartDataPoint),
    (l.foldl tallyRecord acc).cat0to300k
      = acc.cat0to300k + (l.filterMap (fun r => r.resale_price)).countP
          (fun p => decide (p < 300000)) := by
  intro l
  induction l with
  | nil => intro acc; simp
  | cons r t ih =>
    intro acc
    rw [List.foldl_cons, ih, List.filterMap_cons]
    cases hp : r.resale_price with
    | none => rw [show tallyRecord acc r = acc from by unfold tallyRecord; rw [hp]]
    | some p =>
      rw [List.countP_cons]
      by_cases hb : p < 300000
      · have hstep : (tallyRecord acc r).cat0to300k = acc.cat0to300k + 1 := by
          unfold tallyRecord
          rw [hp]
          simp only []
          rw [if_pos hb]
        rw [hstep, if_pos (decide_eq_true hb)]
        omega
      · have hstep : (tallyRecord acc r).cat0to300k = acc.cat0to300k := by
          unfold tallyRecord
          rw [hp]
          simp only []
          rw [if_neg hb]
          split_ifs <;> rfl
        rw [hstep, if_neg (fun hd => hb (of_decide_eq_true hd))]
        omega

theorem tally_cat2 : ∀ (l : List HdbResaleRecord) (acc : StackedBarChartDataPoint),
    (l.foldl tallyRecord acc).cat300to500k
      = acc.cat300to500k + (l.filterMap (fun r => r.resale_price)).countP
          (fun p => decide (300000 ≤ p ∧ p < 500000)) := by
  intro l
  induction l with
  | nil => intro acc; simp
  | cons r t ih =>
    intro acc
    rw [List.foldl_cons, ih, List.filterMap_cons]
    cases hp : r.resale_price with
    | none => rw [show tallyRecord acc r = acc from by unfold tallyRecord; rw [hp]]
    | some p =>
      rw [List.countP_cons]
      by_cases hb : 300000 ≤ p ∧ p < 500000
      · have hstep : (tallyRecord acc r).cat300to500k = acc.cat300to500k + 1 := by
          unfold tallyRecord
          rw [hp]
          simp only []
          rw [if_neg (not_lt.2 hb.1), if_pos hb.2]
        rw [hstep, if_pos (decide_eq_true hb)]
        omega
      · have hstep : (tallyRecord acc r).cat300to500k = acc.cat300to500k := by
          unfold tallyRecord
          rw [hp]
          simp only []
          split_ifs with h1 h2 h3 h4 <;>
            first | rfl | exact absurd ⟨not_lt.1 h1, h2⟩ hb
        rw [hstep, if_neg (fun hd => hb (of_decide_eq_true hd))]
        omega

theorem tally_cat3 : ∀ (l : List HdbResaleRecord) (acc : StackedBarChartDataPoint),
    (l.foldl tallyRecord acc).cat500to800k
      = acc.cat500to800k + (l.filterMap (fun r => r.resale_price)).countP
          (fun p => decide (500000 ≤ p ∧ p < 800000)) := by
  intro l
  induction l with
  | nil => intro acc; simp
  | cons r t ih =>
    intro acc
    rw [List.foldl_cons, ih, List.filterMap_cons]
    cases hp : r.resale_price with
    | none => rw [show tallyRecord acc r = acc from by unfold tallyRecord; rw [hp]]
    | some p =>
      rw [List.countP_cons]
      by_cases hb : 500000 ≤ p ∧ p < 800000
      · have hstep : (tallyRecord acc r).cat500to800k = acc.cat500to800k + 1 := by
          unfold tallyRecord
          rw [hp]
          simp only []
          rw [if_neg (not_lt.2 (by linarith [hb.1] : (300000 : ℚ) ≤ p)),
            if_neg (not_lt.2 hb.1), if_pos hb.2]
        rw [hstep, if_pos (decide_eq_true hb)]
        omega
      · have hstep : (tallyRecord acc r).cat500to800k = acc.cat500to800k := by
          unfold tallyRecord
          rw [hp]
          simp only []
          split_ifs with h1 h2 h3 h4 <;>
            first | rfl | exact absurd ⟨not_lt.1 h2, h3⟩ hb
        rw [hstep, if_neg (fun hd => hb (of_decide_eq_true hd))]
        omega

theorem tally_cat4 : ∀ (l : List HdbResaleRecord) (acc : StackedBarChartDataPoint),
    (l.foldl tallyRecord acc).cat800kto1m
      = acc.cat800kto1m + (l.filterMap (fun r => r.resale_price)).countP
          (fun p => decide (800000 ≤ p ∧ p < 1000000)) := by
  intro l
  induction l with
  | nil => intro acc; simp
  | cons r t ih =>
    intro acc
    rw [List.foldl_cons, ih, List.filterMap_cons]
    cases hp : r.resale_price with
    | none => rw [show tallyRecord acc r = acc from by unfold tallyRecord; rw [hp]]
    | some p =>
      rw [List.countP_cons]
      by_cases hb : 800000 ≤ p ∧ p < 1000000
      · have hstep : (tallyRecord acc r).cat800kto1m = acc.cat800kto1m + 1 := by
          unfold tallyRecord
          rw [hp]
          simp only []
          rw [if_neg (not_lt.2 (by linarith [hb.1] : (300000 : ℚ) ≤ p)),
            if_neg (not_lt.2 (by linarith [hb.1] : (500000 : ℚ) ≤ p)),
            if_neg (not_lt.2 hb.1), if_pos hb.2]
        rw [hstep, if_pos (decide_eq_true hb)]
        omega
      · have hstep : (tallyRecord acc r).cat800kto1m = acc.cat800kto1m := by
          unfold tallyRecord
          rw [hp]
          simp only []
          split_ifs with h1 h2 h3 h4 <;>
            first | rfl | exact absurd ⟨not_lt.1 h3, h4⟩ hb
        rw [hstep, if_neg (fun hd => hb (of_decide_eq_true hd))]
        omega

theorem tally_cat5 : ∀ (l : List HdbResaleRecord) (acc : StackedBarChartDataPoint),
    (l.foldl tallyRecord acc).catGe1m
      = acc.catGe1m + (l.filterMap (fun r => r.resale_price)).countP
          (fun p => decide (1000000 ≤ p)) := by
  intro l
  induction l with
  | nil => intro acc; simp
  | cons r t ih =>
    intro acc
    rw [List.foldl_cons, ih, List.filterMap_cons]
    cases hp : r.resale_price with
    | none => rw [show tallyRecord acc r = acc from by unfold tallyRecord; rw [hp]]
    | some p =>
      rw [List.countP_cons]
      by_cases hb : 1000000 ≤ p
      · have hstep : (tallyRecord acc r).catGe1m = acc.catGe1m + 1 := by
          unfold tallyRecord
          rw [hp]
          simp only []
          rw [if_neg (not_lt.2 (by linarith : (300000 : ℚ) ≤ p)),
            if_neg (not_lt.2 (by linarith : (500000 : ℚ) ≤ p)),
            if_neg (not_lt.2 (by linarith : (800000 : ℚ) ≤ p)),
            if_neg (not_lt.2 hb)]
        rw [hstep, if_pos (decide_eq_true hb)]
        omega
      · have hstep : (tallyRecord acc r).catGe1m = acc.catGe1m := by
          unfold tallyRecord
          rw [hp]
          simp only []
          split_ifs with h1 h2 h3 h4 <;>
            first | rfl | exact absurd (not_lt.1 h4) hb
        rw [hstep, if_neg (fun hd => hb (of_decide_eq_true hd))]
        omega

theorem countP_bands (ps : List ℚ) :
    ps.countP (fun p => decide (p < 300000)) +
      ps.countP (fun p => decide (300000 ≤ p ∧ p < 500000)) +
      ps.countP (fun p => decide (500000 ≤ p ∧ p < 800000)) +
      ps.countP (fun p => decide (800000 ≤ p ∧ p < 1000000)) +
      ps.countP (fun p => decide (1000000 ≤ p)) = ps.length := by
  induction ps with
  | nil => rfl
  | cons p t ih =>
    simp only [List.countP_cons, List.length_cons]
    rcases lt_or_le p 300000 with h1 | h1
    · rw [if_pos (decide_eq_true h1),
        if_neg (fun hd => absurd h1 (not_lt.2 (of_decide_eq_true hd).1)),
        if_neg (fun hd => by linarith [(of_decide_eq_true hd).1]),
        if_neg (fun hd => by linarith [(of_decide_eq_true hd).1]),
        if_neg (fun hd => by linarith [of_decide_eq_true hd])]
      omega
    · rcases lt_or_le p 500000 with h2 | h2
      · rw [if_neg (fun hd => absurd (of_decide_eq_true hd) (not_lt.2 h1)),
          if_pos (decide_eq_true ⟨h1, h2⟩),
          if_neg (fun hd => by linarith [(of_decide_eq_true hd).1]),
          if_neg (fun hd => by linarith [(of_decide_eq_true hd).1]),
          if_neg (fun hd => by linarith [of_decide_eq_true hd])]
        omega
      · rcases lt_or_le p 800000 with h3 | h3
        · rw [if_neg (fun hd => by linarith [of_decide_eq_true hd]),
            if_neg (fun hd => by linarith [(of_decide_eq_true hd).2]),
            if_pos (decide_eq_true ⟨h2, h3⟩),
            if_neg (fun hd => by linarith [(of_decide_eq_true hd).1]),
            if_neg (fun hd => by linarith [of_decide_eq_true hd])]
          omega
        · rcases lt_or_le p 1000000 with h4 | h4
          · rw [if_neg (fun hd => by linarith [of_decide_eq_true hd]),
              if_neg (fun hd => by linarith [(of_decide_eq_true hd).2]),
              if_neg (fun hd => by linarith [(of_decide_eq_true hd).2]),
              if_pos (decide_eq_true ⟨h3, h4⟩),
              if_neg (fun hd => by linarith [of_decide_eq_true hd])]
            omega
          · rw [if_neg (fun hd => by linarith [of_decide_eq_true hd]),
              if_neg (fun hd => by linarith [(of_decide_eq_true hd).2]),
              if_neg (fun hd => by linarith [(of_decide_eq_true hd).2]),
              if_neg (fun hd => by linarith [(of_decide_eq_true hd).2]),
              if_pos (decide_eq_true h4)]
            omega

/-- C7: every emitted category point counts exactly the parseable-priced
records of its period, each band being the half-open interval of the claim
(the top band unbounded above), and the five band counts sum to
`totalTransactions`. -/
theorem stackedBar_partition {records : List HdbResaleRecord} {xDomain : List String}
    {point : StackedBarChartDataPoint}
    (h : point ∈ calculateStackedBarChartData records xDomain) :
    point.totalTransactions
        = ((records.filter (fun r => r.month == point.month)).filterMap
            (fun r => r.resale_price)).length ∧
      point.cat0to300k
        = ((records.filter (fun r => r.month == point.month)).filterMap
            (fun r => r.resale_price)).countP (fun p => decide (p < 300000)) ∧
      point.cat300to500k
        = ((records.filter (fun r => r.month == point.month)).filterMap
            (fun r => r.resale_price)).countP
              (fun p => decide (300000 ≤ p ∧ p < 500000)) ∧
      point.cat500to800k
        = ((records.filter (fun r => r.month == point.month)).filterMap
            (fun r => r.resale_price)).countP
              (fun p => decide (500000 ≤ p ∧ p < 800000)) ∧
      point.cat800kto1m
        = ((records.filter (fun r => r.month == point.month)).filterMap
            (fun r => r.resale_price)).countP
              (fun p => decide (800000 ≤ p ∧ p < 1000000)) ∧
      point.catGe1m
        = ((records.filter (fun r => r.month == point.month)).filterMap
            (fun r => r.resale_price)).countP (fun p => decide (1000000 ≤ p)) ∧
      point.cat0to300k + point.cat300to500k + point.cat500to800k + point.cat800kto1m
          + point.catGe1m = point.totalTransactions := by
  unfold calculateStackedBarChartData at h
  by_cases hre : records.isEmpty
  · rw [if_pos hre] at h
    simp at h
  · rw [if_neg hre] at h
    obtain ⟨m, hm, rfl⟩ := List.mem_map.1 h
    have hmonth : (stackedBarPoint records m).month = m := tally_month _ _
    rw [hmonth]
    unfold stackedBarPoint
    rw [tally_total, tally_cat1, tally_cat2, tally_cat3, tally_cat4, tally_cat5]
    refine ⟨by simp, by simp, by simp, by simp, by simp, by simp, ?_⟩
    simpa using countP_bands
      ((records.filter (fun r => r.month == m)).filterMap (fun r => r.resale_price))

/-- Five one-month records, one in each price band. -/
def stkRecords : List HdbResaleRecord :=
  [mkPriceRecord 100, mkPriceRecord 350000, mkPriceRecord 600000, mkPriceRecord 900000,
   mkPriceRecord 1500000]

/-- The category point `calculateStackedBarChartData` emits for `stkRecords`. -/
def stkPoint : StackedBarChartDataPoint :=
  { month := "2024-01"
    cat0to300k := 1
    cat300to500k := 1
    cat500to800k := 1
    cat800kto1m := 1
    catGe1m := 1
    totalTransactions := 5 }

theorem stkFil : stkRecords.filter (fun r => r.month == "2024-01") = stkRecords := by
  simp [stkRecords, mkPriceRecord]

theorem stkPointEval : stackedBarPoint stkRecords "2024-01" = stkPoint := by
  rw [stackedBarPoint, stkFil]
  norm_num [stkRecords, mkPriceRecord, List.foldl_cons, List.foldl_nil, tallyRecord, stkPoint]

theorem stkData :
    calculateStackedBarChartData stkRecords ["2024-01"] = [stkPoint] := by
  rw [calculateStackedBarChartData, if_neg (by norm_num [stkRecords])]
  simp only [List.map_cons, List.map_nil]
  rw [stkPointEval]

/-- C7 witness: the statement evaluated on `stkRecords`. -/
theorem stackedBar_partition_witness :
    stkPoint.totalTransactions
        = ((stkRecords.filter (fun r => r.month == stkPoint.month)).filterMap
            (fun r => r.resale_price)).length ∧
      stkPoint.cat0to300k
        = ((stkRecords.filter (fun r => r.month == stkPoint.month)).filterMap
            (fun r => r.resale_price)).countP (fun p => decide (p < 300000)) ∧
      stkPoint.cat300to500k
        = ((stkRecords.filter (fun r => r.month == stkPoint.month)).filterMap
            (fun r => r.resale_price)).countP
              (fun p => decide (300000 ≤ p ∧ p < 500000)) ∧
      stkPoint.cat500to800k
        = ((stkRecords.filter (fun r => r.month == stkPoint.month)).filterMap
            (fun r => r.resale_price)).countP
              (fun p => decide (500000 ≤ p ∧ p < 800000)) ∧
      stkPoint.cat800kto1m
        = ((stkRecords.filter (fun r => r.month == stkPoint.month)).filterMap
            (fun r => r.resale_price)).countP
              (fun p => decide (800000 ≤ p ∧ p < 1000000)) ∧
      stkPoint.catGe1m
        = ((stkRecords.filter (fun r => r.month == stkPoint.month)).filterMap
            (fun r => r.resale_price)).countP (fun p => decide (1000000 ≤ p)) ∧
      stkPoint.cat0to300k + stkPoint.cat300to500k + stkPoint.cat500to800k
          + stkPoint.cat800kto1m + stkPoint.catGe1m = stkPoint.totalTransactions :=
  stackedBar_partition (by rw [stkData]; simp)

/- ### Claim C2 -/

theorem lineChartPoint_month (records : List HdbResaleRecord) (month : String) :
    (lineChartPoint records month).month = month := by
  unfold lineChartPoint
  split_ifs <;> rfl

theorem lineChartPoint_gap {records : List HdbResaleRecord} {month : String}
    (h : (records.filter (fun r => r.month == month)).filterMap
      (fun r => r.resale_price) = []) :
    lineChartPoint records month
      = { month := month
          transactionCount := none
          grossTransactionValue := none
          median_psf := none
          median_price_per_lease := none
          millionDollarTransactionPercentage := none } := by
  have hval : validRecordsOf records month = [] := by
    unfold validRecordsOf monthRecordsOf
    rw [List.filter_eq_nil_iff]
    intro a ha
    obtain ⟨r, hr, rfl⟩ := List.mem_map.1 ha
    have hnone := List.filterMap_eq_nil_iff.1 h r hr
    simp [normRecord, hnone]
  unfold lineChartPoint
  rw [hval]
  norm_num

/-- C2 counterexample: on the empty record collection the point list is empty
even when the period domain is non-empty, so its length is not
`len(periodDomain)`. -/
theorem lineChart_empty_cex :
    ¬((calculateLineChartData ([] : List HdbResaleRecord) ["2024-01"]).lineChartData.length
      = (["2024-01"] : List String).length) := by
  simp [calculateLineChartData]

/-- C2 (amended): for every NON-EMPTY record collection the point list has
exactly one point per period of `periodDomain`, in order, and a period with no
valid-priced record yields a point with every metric field undefined. -/
theorem lineChart_points {records : List HdbResaleRecord} {xDomain : List String}
    (h : records ≠ []) :
    (calculateLineChartData records xDomain).lineChartData.length = xDomain.length ∧
      ((calculateLineChartData records xDomain).lineChartData.map (fun p => p.month)
        = xDomain) ∧
      ∀ p ∈ (calculateLineChartData records xDomain).lineChartData,
        (records.filter (fun r => r.month == p.month)).filterMap
            (fun r => r.resale_price) = [] →
        p.transactionCount = none ∧ p.grossTransactionValue = none ∧
          p.median_psf = none ∧ p.median_price_per_lease = none ∧
          p.millionDollarTransactionPercentage = none := by
  have hne : ¬records.isEmpty = true := by
    simp [List.isEmpty_iff]
    exact h
  unfold calculateLineChartData
  rw [if_neg hne]
  refine ⟨by simp, ?_, ?_⟩
  · rw [List.map_map]
    rw [show ((fun p : LineChartDataPoint => p.month) ∘ lineChartPoint records) = id
      from funext (fun m => lineChartPoint_month records m)]
    exact List.map_id xDomain
  · intro p hp hgap
    obtain ⟨m, hm, rfl⟩ := List.mem_map.1 hp
    rw [lineChartPoint_month] at hgap
    rw [lineChartPoint_gap hgap]
    exact ⟨rfl, rfl, rfl, rfl, rfl⟩

/-- C2 witness: the amended statement evaluated on a one-record collection and
a two-period domain. -/
theorem lineChart_points_witness :
    (calculateLineChartData [mkPriceRecord 500000]
        ["2024-01", "2024-02"]).lineChartData.length
      = (["2024-01", "2024-02"] : List String).length ∧
      ((calculateLineChartData [mkPriceRecord 500000]
          ["2024-01", "2024-02"]).lineChartData.map (fun p => p.month)
        = ["2024-01", "2024-02"]) ∧
      ∀ p ∈ (calculateLineChartData [mkPriceRecord 500000]
          ["2024-01", "2024-02"]).lineChartData,
        ([mkPriceRecord 500000].filter (fun r => r.month == p.month)).filterMap
            (fun r => r.resale_price) = [] →
        p.transactionCount = none ∧ p.grossTransactionValue = none ∧
          p.median_psf = none ∧ p.median_price_per_lease = none ∧
          p.millionDollarTransactionPercentage = none :=
  lineChart_points (by simp)

end HdbSpec
